import Mathlib

/-!
Verification of the graph-compilation engine in deflex (scenario_tools.py).

The Python source is shallowly embedded: pandas tables become association
lists over rational numbers, the node registry (a dict subclass) becomes an
association list threaded through `Except` (a raised exception aborts the
computation and carries no updated registry), and every builder function is
translated statement by statement.  Machine floats are modelled as rationals;
the special values float("inf") and NaN are modelled explicitly where the
source branches on them (`TCap` for possibly-unbounded capacities, `Option`
for possibly-missing / NaN cells).
-/

set_option maxRecDepth 8192

namespace Deflex

/- ## String helpers -/

/-- The single-quote character as a one-character string (used when rendering
the duplicate-key error message of `NodeDict.__setitem__`). -/
def squote : String := String.mk [Char.ofNat 39]

/-- Python `s.replace(a, b)` for single-character `a`, `b`: every occurrence
of the character `a` in `s` is replaced by `b`. -/
def replaceChar (a b : Char) (s : String) : String :=
  String.mk (s.data.map (fun c => if c = a then b else c))

/-- `fuel.replace(" ", "_")` from the source. -/
def spaceToUnderscore (s : String) : String := replaceChar ' ' '_' s

/-- `fuel.replace("_", " ")` from the source. -/
def underscoreToSpace (s : String) : String := replaceChar '_' ' ' s

/-- Whether `needle` occurs at the start of `hay` (on character lists). -/
def charsHasPfx : List Char → List Char → Bool
  | [], _ => true
  | _ :: _, [] => false
  | a :: as, b :: bs => a == b && charsHasPfx as bs

/-- Whether `needle` occurs anywhere inside `hay` (on character lists). -/
def charsContains (needle : List Char) : List Char → Bool
  | [] => charsHasPfx needle []
  | b :: bs => charsHasPfx needle (b :: bs) || charsContains needle bs

/-- Python substring test `needle in hay` on strings. -/
def strContainsStr (hay needle : String) : Bool :=
  charsContains needle.data hay.data

/- ## Identity keys (class Label, scenario_tools.py line 275) -/

/-- The 4-part composite identity key of every node:
`Label = namedtuple("solph_label", ["cat", "tag", "subtag", "region"])`. -/
structure Label where
  cat : String
  tag : String
  subtag : String
  region : String
deriving DecidableEq

/-- `Label.__str__`: the four fields joined with an underscore. -/
def Label.render (l : Label) : String :=
  l.cat ++ "_" ++ l.tag ++ "_" ++ l.subtag ++ "_" ++ l.region

/- ## Flows and nodes (oemof.solph constructors, as parameterized here) -/

/-- The attribute record attached to one node-to-node connection.  A field
that the source does not pass to the `Flow(...)` constructor keeps its
default (`none` / `false` / `0`). -/
structure Flow where
  nominal_value : Option ℚ := none
  actual_value : Option (List ℚ) := none
  fixed : Bool := false
  variable_costs : ℚ := 0
  emission : Option ℚ := none
  summed_max : Option ℚ := none
deriving DecidableEq

/-- The node variants the builders construct.  Connections reference the
partner node by its identity key (in the source they reference the node
object itself, whose identity is its label). -/
inductive Node where
  | bus (label : Label)
  | source (label : Label) (outputs : List (Label × Flow))
  | sink (label : Label) (inputs : List (Label × Flow))
  | transformer (label : Label) (inputs : List (Label × Flow))
      (outputs : List (Label × Flow)) (conversion_factors : List (Label × ℚ))
  | storage (label : Label) (inputs : List (Label × Flow))
      (outputs : List (Label × Flow)) (nominal_storage_capacity : ℚ)
      (loss_rate : ℚ) (initial_storage_level : Option ℚ)
      (inflow_conversion_factor : ℚ) (outflow_conversion_factor : ℚ)
deriving DecidableEq

/- ## The node registry (class NodeDict, scenario_tools.py line 46) -/

/-- The node registry: an insertion-ordered mapping from identity key to
node, modelled as an association list (new entries are appended). -/
abbrev NodeDict := List (Label × Node)

/-- Lookup (`dict.get` / `in` test): first entry with the given key. -/
def ndGet : NodeDict → Label → Option Node
  | [], _ => none
  | (k, v) :: rest, key => if k = key then some v else ndGet rest key

/-- The error message raised by `NodeDict.__setitem__` on a duplicate key. -/
def duplicateKeyMsg (key : Label) : String :=
  "Key " ++ squote ++ Label.render key ++ squote ++ " already exists. "
    ++ "Duplicate keys are not allowed in a node dictionary."

/-- `NodeDict.__setitem__`: stores the item if the key is not yet bound,
raises a KeyError otherwise (the raise leaves the dictionary untouched,
which the `Except` embedding expresses by carrying no updated registry in
the error case). -/
def NodeDict.setItem (nd : NodeDict) (key : Label) (item : Node) :
    Except String NodeDict :=
  match ndGet nd key with
  | none => Except.ok (nd ++ [(key, item)])
  | some _ => Except.error (duplicateKeyMsg key)

/-- The registry as seen by the caller after an attempted insertion: the
updated registry on success, the unchanged one when the insertion raised. -/
def ndAfterSet (nd : NodeDict) (key : Label) (item : Node) : NodeDict :=
  match NodeDict.setItem nd key item with
  | Except.ok nd2 => nd2
  | Except.error _ => nd

/-- Python `nodes[key]` read access (plain dict lookup, raises KeyError when
the key is absent). -/
def ndGetE (nd : NodeDict) (key : Label) : Except String Node :=
  match ndGet nd key with
  | some v => Except.ok v
  | none => Except.error ("KeyError: " ++ Label.render key)

/- ## Possibly-missing and possibly-unbounded table cells -/

/-- Python comparison `x > 0` for a cell that may be NaN or missing
(comparisons against NaN are always false). -/
def optGtZero : Option ℚ → Bool
  | none => false
  | some q => decide (0 < q)

/-- Multiplication of a possibly-NaN cell with a number (NaN propagates). -/
def optMulQ : Option ℚ → ℚ → Option ℚ
  | none, _ => none
  | some q, r => some (q * r)

/-- A finite capacity, or the unbounded sentinel float("inf"). -/
inductive TCap where
  | inf
  | fin (c : ℚ)
deriving DecidableEq

/-- The nominal_value bound a capacity imposes on a Flow: no bound for the
unbounded sentinel, the capacity itself otherwise. -/
def TCap.toNominal : TCap → Option ℚ
  | TCap.inf => none
  | TCap.fin c => some c

/- ## Tables with a 2-level column index -/

/-- A pandas table with a 2-level column index, reduced to its columns: each
column is a ((level-0 key, level-1 key), cell content) pair. -/
abbrev ColTable (α : Type) := List ((String × String) × α)

/-- Cell access `table[k0, k1]`, `none` when the column is absent (the
KeyError case in the source). -/
def colGet {α : Type} : ColTable α → String → String → Option α
  | [], _, _ => none
  | (k, v) :: rest, k0, k1 =>
    if k.1 = k0 ∧ k.2 = k1 then some v else colGet rest k0 k1

/-- `df.columns.swaplevel()` assigned back in place: every column key has
its two levels exchanged. -/
def swapColLevels {α : Type} (t : ColTable α) : ColTable α :=
  t.map (fun c => ((c.1.2, c.1.1), c.2))

/-- Sub-table selection `df[k0]` on the level-0 key, raising a KeyError when
no column matches. -/
def colSelectE {α : Type} (t : ColTable α) (k0 : String) :
    Except String (List (String × α)) :=
  let sub := (t.filter (fun c => c.1.1 == k0)).map (fun c => (c.1.2, c.2))
  if sub.isEmpty then Except.error ("KeyError: " ++ k0) else Except.ok sub

/- ## Volatile-source builder (add_volatile_sources, line 347) -/

/-- Rendering of a possibly-NaN capacity cell inside an error message. -/
def optQRepr : Option ℚ → String
  | none => "nan"
  | some q => toString q

/-- The error raised for a nonzero-capacity volatile source without a
feed-in series: "Missing time series for {0} (capacity: {1}) in {2}.". -/
def missingSeriesMsg (vs_type : String) (capacity : Option ℚ)
    (region : String) : String :=
  "Missing time series for " ++ vs_type ++ " (capacity: "
    ++ optQRepr capacity ++ ") in " ++ region ++ "."

/-- The body of the (region, vs_type) loop of `add_volatile_sources`:
look up the capacity cell and the feed-in series, defaulting an absent
series to `[0]` when the capacity is not positive and raising otherwise;
get-or-create the regional electricity bus; create the Source only when
`capacity * sum(feedin) > 0`. -/
def add_volatile_sources_entry (volatile_series : ColTable (List ℚ))
    (region vs_type : String) (capacity : Option ℚ) (nodes : NodeDict) :
    Except String NodeDict := do
  let vs_label : Label := ⟨"source", "ee", vs_type, region⟩
  let feedin : List ℚ ←
    match colGet volatile_series region vs_type with
    | some s => pure s
    | none =>
      if optGtZero capacity then
        Except.error (missingSeriesMsg vs_type capacity region)
      else pure [0]
  let bus_label : Label := ⟨"bus", "electricity", "all", region⟩
  let nodes ←
    if ndGet nodes bus_label = none then
      NodeDict.setItem nodes bus_label (Node.bus bus_label)
    else pure nodes
  if optGtZero (optMulQ capacity feedin.sum) then
    NodeDict.setItem nodes vs_label (Node.source vs_label
      [(bus_label, { actual_value := some feedin, nominal_value := capacity,
                     fixed := true, emission := some 0 })])
  else pure nodes

/-- `add_volatile_sources`: the loop over all (region, technology) columns
of the volatile_source table (each cell holding the capacity row entry). -/
def add_volatile_sources (volatile_source : ColTable (Option ℚ))
    (volatile_series : ColTable (List ℚ)) (nodes : NodeDict) :
    Except String NodeDict :=
  volatile_source.foldlM (fun nd col =>
    add_volatile_sources_entry volatile_series col.1.1 col.1.2 col.2 nd) nodes

/- ## Transmission builder (add_transmission_lines_between_electricity_nodes, line 495) -/

/-- The error raised when an endpoint electricity bus of a power line is
absent: "Bus {0} missing for power line from {0} to {1}" (the source formats
the missing bus label into both the first and the second slot). -/
def missingBusMsg (busMissing busOther : Label) : String :=
  "Bus " ++ Label.render busMissing ++ " missing for power line from "
    ++ Label.render busMissing ++ " to " ++ Label.render busOther

/-- One direction of a power line row: check that both endpoint electricity
buses already exist (raising otherwise, before anything is inserted), then
insert a Transformer from the first to the second endpoint whose outbound
Flow carries the capacity as nominal_value unless the capacity is the
unbounded sentinel, with the efficiency as conversion factor on the
outbound bus. -/
def add_transmission_line_direction (nodes : NodeDict) (bFrom bTo : String)
    (capacity : TCap) (efficiency : ℚ) : Except String NodeDict := do
  let line_label : Label := ⟨"line", "electricity", bFrom, bTo⟩
  let bus_label_in : Label := ⟨"bus", "electricity", "all", bFrom⟩
  let bus_label_out : Label := ⟨"bus", "electricity", "all", bTo⟩
  if ndGet nodes bus_label_in = none then
    Except.error (missingBusMsg bus_label_in bus_label_out)
  else if ndGet nodes bus_label_out = none then
    Except.error (missingBusMsg bus_label_out bus_label_in)
  else
    match capacity with
    | TCap.fin c =>
      NodeDict.setItem nodes line_label (Node.transformer line_label
        [(bus_label_in, {})]
        [(bus_label_out, { nominal_value := some c })]
        [(bus_label_out, efficiency)])
    | TCap.inf =>
      NodeDict.setItem nodes line_label (Node.transformer line_label
        [(bus_label_in, {})]
        [(bus_label_out, {})]
        [(bus_label_out, efficiency)])

/-- One row of the transmission.electrical table with endpoints b1, b2:
`lines = [(b1, b2), (b2, b1)]` and both directions are built in turn. -/
def add_transmission_line_row (nodes : NodeDict) (b1 b2 : String)
    (capacity : TCap) (efficiency : ℚ) : Except String NodeDict :=
  [(b1, b2), (b2, b1)].foldlM
    (fun nd line =>
      add_transmission_line_direction nd line.1 line.2 capacity efficiency)
    nodes

/-- `add_transmission_lines_between_electricity_nodes`: rows are indexed by
"regionA-regionB" strings, split at "-" into the two endpoints. -/
def add_transmission_lines_between_electricity_nodes
    (power_lines : List (String × TCap × ℚ)) (nodes : NodeDict) :
    Except String NodeDict :=
  power_lines.foldlM (fun nd row =>
    match row.1.splitOn "-" with
    | [b1, b2] => add_transmission_line_row nd b1 b2 row.2.1 row.2.2
    | _ => Except.error "ValueError: could not unpack line index") nodes

/- ## Commodity buses (create_fuel_bus_with_source, line 328) -/

/-- The DE column block of the commodity_source table: the per-fuel entries
of its "costs" and "emission" rows. -/
structure CommodityData where
  costs : String → ℚ
  emission : String → ℚ

/-- `create_fuel_bus_with_source`: get-or-create the commodity bus for the
fuel and region, then get-or-create the commodity Source feeding it, priced
from the commodity_source data (the underscores of the fuel name are turned
back into spaces for the row lookup). -/
def create_fuel_bus_with_source (nodes : NodeDict) (fuel region : String)
    (data : CommodityData) : Except String NodeDict := do
  let bus_label : Label := ⟨"bus", "commodity", spaceToUnderscore fuel, region⟩
  let nodes ←
    if ndGet nodes bus_label = none then
      NodeDict.setItem nodes bus_label (Node.bus bus_label)
    else pure nodes
  let cs_label : Label := ⟨"source", "commodity", spaceToUnderscore fuel, region⟩
  if ndGet nodes cs_label = none then
    NodeDict.setItem nodes cs_label (Node.source cs_label
      [(bus_label,
        { variable_costs := data.costs (underscoreToSpace fuel),
          emission := some (data.emission (underscoreToSpace fuel)) })])
  else pure nodes

/- ## Power, CHP and heat plants (add_power_and_heat_plants, line 549) -/

/-- One (region, fuel) column of the transformer table. -/
structure TrsfParams where
  capacity : ℚ
  limit_elec_pp : TCap
  efficiency : ℚ
  capacity_heat_chp : ℚ
  limit_heat_chp : ℚ
  efficiency_elec_chp : ℚ
  efficiency_heat_chp : ℚ
  capacity_hp : ℚ
  limit_hp : ℚ
  efficiency_hp : ℚ
deriving DecidableEq

/-- "Create power plants as 1x1 Transformer": when `capacity > 0`, a
fuel-to-electricity Transformer whose outbound Flow has
`nominal_value = capacity` and, unless `limit_elec_pp` is unbounded,
`summed_max = limit_elec_pp / capacity`. -/
def add_pp_plant (region fuel : String) (params : TrsfParams)
    (bus_fuel : Label) (nodes : NodeDict) : Except String NodeDict :=
  if 0 < params.capacity then do
    let outflow : Flow :=
      match params.limit_elec_pp with
      | TCap.inf => { nominal_value := some params.capacity }
      | TCap.fin l =>
        { nominal_value := some params.capacity,
          summed_max := some (l / params.capacity) }
    let trsf_label : Label := ⟨"trsf", "pp", spaceToUnderscore fuel, region⟩
    let _ ← ndGetE nodes bus_fuel
    let _ ← ndGetE nodes (⟨"bus", "electricity", "all", region⟩ : Label)
    NodeDict.setItem nodes trsf_label (Node.transformer trsf_label
      [(bus_fuel, {})]
      [((⟨"bus", "electricity", "all", region⟩ : Label), outflow)]
      [((⟨"bus", "electricity", "all", region⟩ : Label), params.efficiency)])
  else pure nodes

/-- "Create chp plants as 1x2 Transformer": when `capacity_heat_chp > 0`, a
fuel-to-(electricity, heat) Transformer whose inbound Flow has
`nominal_value = capacity_heat_chp / efficiency_heat_chp` and
`summed_max = (limit_heat_chp / efficiency_heat_chp) /
(capacity_heat_chp / efficiency_heat_chp)`, with conversion factors
`efficiency_elec_chp` and `efficiency_heat_chp`. -/
def add_chp_plant (region fuel : String) (params : TrsfParams)
    (bus_fuel : Label) (nodes : NodeDict) : Except String NodeDict :=
  if 0 < params.capacity_heat_chp then do
    let trsf_label : Label := ⟨"trsf", "chp", spaceToUnderscore fuel, region⟩
    let smax := (params.limit_heat_chp / params.efficiency_heat_chp) /
      (params.capacity_heat_chp / params.efficiency_heat_chp)
    let _ ← ndGetE nodes bus_fuel
    let _ ← ndGetE nodes (⟨"bus", "electricity", "all", region⟩ : Label)
    let _ ← ndGetE nodes (⟨"bus", "heat", "district", region⟩ : Label)
    NodeDict.setItem nodes trsf_label (Node.transformer trsf_label
      [(bus_fuel,
        { nominal_value :=
            some (params.capacity_heat_chp / params.efficiency_heat_chp),
          summed_max := some smax })]
      [((⟨"bus", "electricity", "all", region⟩ : Label), {}),
       ((⟨"bus", "heat", "district", region⟩ : Label), {})]
      [((⟨"bus", "electricity", "all", region⟩ : Label),
        params.efficiency_elec_chp),
       ((⟨"bus", "heat", "district", region⟩ : Label),
        params.efficiency_heat_chp)])
  else pure nodes

/-- "Create heat plants as 1x1 Transformer": when `capacity_hp > 0`, a
fuel-to-heat Transformer with `nominal_value = capacity_hp` and
`summed_max = limit_hp / capacity_hp`. -/
def add_hp_plant (region fuel : String) (params : TrsfParams)
    (bus_fuel : Label) (nodes : NodeDict) : Except String NodeDict :=
  if 0 < params.capacity_hp then do
    let trsf_label : Label := ⟨"trsf", "hp", spaceToUnderscore fuel, region⟩
    let smax := params.limit_hp / params.capacity_hp
    let _ ← ndGetE nodes bus_fuel
    let _ ← ndGetE nodes (⟨"bus", "heat", "district", region⟩ : Label)
    NodeDict.setItem nodes trsf_label (Node.transformer trsf_label
      [(bus_fuel, {})]
      [((⟨"bus", "heat", "district", region⟩ : Label),
        { nominal_value := some params.capacity_hp,
          summed_max := some smax })]
      [((⟨"bus", "heat", "district", region⟩ : Label), params.efficiency_hp)])
  else pure nodes

/-- The three independent plant blocks of the (region, fuel) loop body of
`add_power_and_heat_plants`, run in source order once the fuel bus has been
resolved. -/
def add_plant_branches (region fuel : String) (params : TrsfParams)
    (bus_fuel : Label) (nodes : NodeDict) : Except String NodeDict := do
  let nodes ← add_pp_plant region fuel params bus_fuel nodes
  let nodes ← add_chp_plant region fuel params bus_fuel nodes
  add_hp_plant region fuel params bus_fuel nodes

/-- The body of the (region, fuel) loop of `add_power_and_heat_plants`:
resolve the fuel bus (a per-region bus for extra regions, otherwise the
shared national DE bus created on demand), then build the plants. -/
def add_power_and_heat_plants_entry (cs : CommodityData)
    (extra_regions : List String) (region fuel : String)
    (params : TrsfParams) (nodes : NodeDict) : Except String NodeDict := do
  if region ∈ extra_regions then
    let bus_fuel : Label :=
      ⟨"bus", "commodity", spaceToUnderscore fuel, region⟩
    let nodes ← create_fuel_bus_with_source nodes fuel region cs
    add_plant_branches region fuel params bus_fuel nodes
  else
    let bus_fuel : Label := ⟨"bus", "commodity", spaceToUnderscore fuel, "DE"⟩
    let nodes ←
      if ndGet nodes bus_fuel = none then
        create_fuel_bus_with_source nodes (spaceToUnderscore fuel) "DE" cs
      else pure nodes
    add_plant_branches region fuel params bus_fuel nodes

/-- `add_power_and_heat_plants`: the loop over all (region, fuel) columns of
the transformer table. -/
def add_power_and_heat_plants (transformer : ColTable TrsfParams)
    (cs : CommodityData) (extra_regions : List String) (nodes : NodeDict) :
    Except String NodeDict :=
  transformer.foldlM (fun nd col =>
    add_power_and_heat_plants_entry cs extra_regions col.1.1 col.1.2 col.2 nd)
    nodes

/- ## Electricity demand and district heating (lines 452 and 474) -/

/-- `add_electricity_demand`: first the shared demand_series table has its
column levels swapped in place (`dts.columns = dts.columns.swaplevel()`),
then for every region column of the electrical_load sub-table with positive
total a Sink fixed to the series is attached to the get-or-created regional
electricity bus.  The embedding returns the updated table alongside the
registry to make the in-place mutation of the shared table explicit. -/
def add_electricity_demand (demand_series : ColTable (List ℚ))
    (nodes : NodeDict) :
    Except String (ColTable (List ℚ) × NodeDict) := do
  let dts := swapColLevels demand_series
  let sub ← colSelectE dts "electrical_load"
  let nodes ← sub.foldlM (fun nd col =>
    if 0 < col.2.sum then do
      let bus_label : Label := ⟨"bus", "electricity", "all", col.1⟩
      let nd ←
        if ndGet nd bus_label = none then
          NodeDict.setItem nd bus_label (Node.bus bus_label)
        else pure nd
      let elec_demand_label : Label :=
        ⟨"demand", "electricity", "all", col.1⟩
      NodeDict.setItem nd elec_demand_label (Node.sink elec_demand_label
        [(bus_label,
          { actual_value := some col.2, nominal_value := some 1,
            fixed := true })])
    else pure nd) nodes
  pure (dts, nodes)

/-- `add_district_heating_systems`: for every region column of the
"district heating" sub-table of the (already swapped) demand_series table
with positive total, a Sink fixed to the series on the get-or-created
district heat bus.  The table is not modified here. -/
def add_district_heating_systems (demand_series : ColTable (List ℚ))
    (nodes : NodeDict) :
    Except String (ColTable (List ℚ) × NodeDict) := do
  let sub ← colSelectE demand_series "district heating"
  let nodes ← sub.foldlM (fun nd col =>
    if 0 < col.2.sum then do
      let bus_label : Label := ⟨"bus", "heat", "district", col.1⟩
      let nd ←
        if ndGet nd bus_label = none then
          NodeDict.setItem nd bus_label (Node.bus bus_label)
        else pure nd
      let heat_demand_label : Label := ⟨"demand", "heat", "district", col.1⟩
      NodeDict.setItem nd heat_demand_label (Node.sink heat_demand_label
        [(bus_label,
          { actual_value := some col.2, nominal_value := some 1,
            fixed := true })])
    else pure nd) nodes
  pure (demand_series, nodes)

/- ## Storages (add_storages, line 644) -/

/-- One (phes, region) column of the storages table. -/
structure StorageParams where
  pump : ℚ
  turbine : ℚ
  energy : ℚ
  pump_eff : ℚ
  turbine_eff : ℚ
deriving DecidableEq

/-- `add_storages`: the storages table has its column levels swapped in
place, then every region column of the phes sub-table yields a
GenericStorage on the regional electricity bus (which must exist). -/
def add_storages (storages_table : ColTable StorageParams)
    (nodes : NodeDict) :
    Except String (ColTable StorageParams × NodeDict) := do
  let storages := swapColLevels storages_table
  let sub ← colSelectE storages "phes"
  let nodes ← sub.foldlM (fun nd col => do
    let storage_label : Label := ⟨"storage", "electricity", "phes", col.1⟩
    let bus_label : Label := ⟨"bus", "electricity", "all", col.1⟩
    let _ ← ndGetE nd bus_label
    NodeDict.setItem nd storage_label (Node.storage storage_label
      [(bus_label, { nominal_value := some col.2.pump })]
      [(bus_label, { nominal_value := some col.2.turbine })]
      col.2.energy 0 none col.2.pump_eff col.2.turbine_eff)) nodes
  pure (storages, nodes)

/- ## Conventional mobility (add_conventional_mobility, line 663) -/

/-- A pandas Series: ordered (index label, cell) pairs, a cell being
`none` for NaN. -/
abbrev PdSeries := List (String × Option ℚ)

/-- A pandas DataFrame with single-level columns, column-major: ordered
(column label, column Series) pairs.  All columns of one loaded table
share the loader's row order. -/
abbrev PdFrame := List (String × PdSeries)

/-- Alignment lookup: the value a Series contributes at a label, NaN when
the label is absent from its index. -/
def pdAlign (s : PdSeries) (lab : String) : Option ℚ :=
  match s.find? (fun c => c.1 == lab) with
  | some c => c.2
  | none => none

/-- NaN-propagating product of two cells. -/
def optMulCells : Option ℚ → Option ℚ → Option ℚ
  | some x, some y => some (x * y)
  | some _, none => none
  | none, _ => none

/-- Series.mul(Series): elementwise product aligned on the index labels
(the shipped mobility tables share one label set, so the left operand's
index carries the result). -/
def pdMul (a b : PdSeries) : PdSeries :=
  a.map (fun c => (c.1, optMulCells c.2 (pdAlign b c.1)))

/-- DataFrame.mul(DataFrame): columnwise `pdMul` aligned on the column
labels. -/
def pdFrameMul (a b : PdFrame) : PdFrame :=
  a.map (fun col => (col.1,
    pdMul col.2 (match b.find? (fun c => c.1 == col.1) with
      | some c => c.2
      | none => [])))

/-- DataFrame.mul(Series): pandas aligns the Series on the columns, so
every cell of a column is scaled by the Series value at the column
label. -/
def pdFrameMulRow (a : PdFrame) (row : PdSeries) : PdFrame :=
  a.map (fun col => (col.1,
    col.2.map (fun c => (c.1, optMulCells c.2 (pdAlign row col.1)))))

/-- DataFrame / scalar. -/
def pdFrameDiv (a : PdFrame) (d : ℚ) : PdFrame :=
  a.map (fun col => (col.1,
    col.2.map (fun c => (c.1, c.2.map (fun x => x / d)))))

/-- df.iloc[0]: the first row as a Series over the column labels. -/
def pdIloc0 (a : PdFrame) : PdSeries :=
  a.map (fun col => (col.1,
    match col.2 with
    | [] => none
    | c :: _ => c.2))

/-- DataFrame.sum(): the per-column sums as a Series indexed by the
COLUMN labels (NaN cells are skipped, as pandas does by default). -/
def pdFrameSum (a : PdFrame) : PdSeries :=
  a.map (fun col => (col.1, some ((col.2.map (fun c => c.2.getD 0)).sum)))

/-- Series divided by a scalar count. -/
def pdDivNat (s : PdSeries) (n : Nat) : PdSeries :=
  s.map (fun c => (c.1, c.2.map (fun x => x / (n : ℚ))))

/-- pd.Series(data, index=idx, dtype=float) applied to Series data: the
data is not broadcast but REINDEXED to idx — each new index label takes
the data value at that label, NaN where the label is absent from the data
index. -/
def pdSeriesWithIndex (data : PdSeries) (idx : List String) : PdSeries :=
  idx.map (fun i => (i, pdAlign data i))

/-- `energy_tp = mileage.mul(spec_demand).mul(energy_content.iloc[0])
/ 10 ** 6` on the DE sub-tables of the three mobility tables (all loaded
as DataFrames, since both loaders force a 2-level column header). -/
def mobility_energy_tp (mileage spec_demand energy_content : PdFrame) :
    PdFrame :=
  pdFrameDiv (pdFrameMulRow (pdFrameMul mileage spec_demand)
    (pdIloc0 energy_content)) (10 ^ 6)

/-- `energy = energy_tp.sum()`: a Series indexed by the technology column
labels — not a scalar. -/
def mobility_energy (mileage spec_demand energy_content : PdFrame) :
    PdSeries :=
  pdFrameSum (mobility_energy_tp mileage spec_demand energy_content)

/-- `fix_value = pd.Series(energy / len(idx), index=idx, dtype=float)`,
with idx the datetime index of the demand_series table.  This is the
object the loop passes, for each of the fuels diesel and petrol, as
`actual_value` to the inbound Flow of the one Sink it creates on the
national oil commodity bus.  Because `energy` is a technology-labelled
Series, constructing a Series from it with the datetime index reindexes
it rather than broadcasting a constant. -/
def mobility_fix_value (mileage spec_demand energy_content : PdFrame)
    (idx : List String) : PdSeries :=
  pdSeriesWithIndex
    (pdDivNat (mobility_energy mileage spec_demand energy_content)
      idx.length) idx

/- ## Shortage and excess (add_shortage_excess, line 693) -/

/-- The key of the Excess Sink attached to a bus key. -/
def excessLabel (key : Label) : Label :=
  ⟨"excess", key.tag, key.subtag, key.region⟩

/-- The key of the Shortage Source attached to a bus key. -/
def shortageLabel (key : Label) : Label :=
  ⟨"shortage", key.tag, key.subtag, key.region⟩

/-- The loop body of `add_shortage_excess` for one bus key: insert the
Excess Sink draining the bus, then the Shortage Source feeding it at
variable cost 900 per unit. -/
def add_shortage_excess_step (nd : NodeDict) (key : Label) :
    Except String NodeDict := do
  let nd ← NodeDict.setItem nd (excessLabel key)
    (Node.sink (excessLabel key) [(key, {})])
  NodeDict.setItem nd (shortageLabel key)
    (Node.source (shortageLabel key) [(key, { variable_costs := 900 })])

/-- `add_shortage_excess`: collect every key whose category contains "bus"
as a substring (`"bus" in key.cat`), and attach an Excess Sink and a
Shortage Source to each. -/
def add_shortage_excess (nodes : NodeDict) : Except String NodeDict :=
  let bus_keys := (nodes.map Prod.fst).filter
    (fun key => strContainsStr key.cat "bus")
  bus_keys.foldlM add_shortage_excess_step nodes

/-- The entries `add_shortage_excess` appends for a list of bus keys. -/
def shortage_excess_partners : List Label → List (Label × Node)
  | [] => []
  | key :: ks =>
    (excessLabel key, Node.sink (excessLabel key) [(key, {})]) ::
    (shortageLabel key,
      Node.source (shortageLabel key) [(key, { variable_costs := 900 })]) ::
    shortage_excess_partners ks

/-- The node categories the builders of this pipeline create before
`add_shortage_excess` runs (see the loop bodies above, and the
decentralised-heat builder which creates bus, source, trsf and demand
nodes). -/
def pipelineCats : List String :=
  ["bus", "source", "trsf", "demand", "line", "storage", "Usage"]

/- ## Energy-system initialisation (Scenario.initialise_energy_system, line 86) -/

/-- `calendar.isleap(year)`. -/
def isleap (year : Int) : Bool :=
  year % 4 == 0 && (year % 100 != 0 || year % 400 == 0)

/-- The TypeError raised when `calendar.isleap` is applied to a year that is
not a number ("You cannot create an EnergySystem with self.year={0}, of
type {1}.", with the default year None). -/
def invalidYearMsg : String :=
  "You cannot create an EnergySystem with self.year=None, of type NoneType."

/-- The parse failure of `pd.date_range` when the start date
"1/1/{year}" cannot be interpreted. -/
def dateRangeMsg : String :=
  "ValueError: could not parse the start date 1/1/None"

/-- `Scenario.initialise_energy_system`, returning the number of hourly
steps of the resulting horizon.  A year that cannot be interpreted as a
calendar year is `none`: the non-debug branch then raises the TypeError
from `calendar.isleap`, and the debug branch still fails when
`pd.date_range` cannot parse the start date, so no energy system is
produced either way. -/
def initialise_energy_system (debug : Bool) (year : Option Int) :
    Except String Nat := do
  let number_of_time_steps ←
    if debug = true then pure 3
    else
      match year with
      | some y => pure (if isleap y then 8784 else 8760)
      | none => Except.error invalidYearMsg
  match year with
  | some _ => pure number_of_time_steps
  | none => Except.error dateRangeMsg

/-- `Scenario.table2es`: initialise the energy system, then create the
nodes and add them (`create_nodes` is overridden by the scenario subclass,
hence a parameter here). -/
def table2es (debug : Bool) (year : Option Int)
    (create_nodes : Unit → Except String NodeDict) :
    Except String (Nat × NodeDict) := do
  let es ← initialise_energy_system debug year
  let nodes ← create_nodes ()
  pure (es, nodes)

/- # Lemmas and claim theorems -/

/- ## Basic registry lemmas -/

theorem ndGet_append_of_none {nd1 : NodeDict} {k : Label}
    (nd2 : NodeDict) (h : ndGet nd1 k = none) :
    ndGet (nd1 ++ nd2) k = ndGet nd2 k := by
  induction nd1 with
  | nil => simp
  | cons p rest ih =>
    obtain ⟨k', v⟩ := p
    by_cases hk : k' = k
    · simp [ndGet, hk] at h
    · simpa [ndGet, hk] using ih (by simpa [ndGet, hk] using h)

theorem ndGet_append_of_some {nd1 : NodeDict} {k : Label} {v : Node}
    (nd2 : NodeDict) (h : ndGet nd1 k = some v) :
    ndGet (nd1 ++ nd2) k = some v := by
  induction nd1 with
  | nil => simp [ndGet] at h
  | cons p rest ih =>
    obtain ⟨k', v'⟩ := p
    by_cases hk : k' = k
    · simpa [ndGet, hk] using by simpa [ndGet, hk] using h
    · simpa [ndGet, hk] using ih (by simpa [ndGet, hk] using h)

theorem ndGet_singleton_self (k : Label) (v : Node) :
    ndGet [(k, v)] k = some v := by
  simp [ndGet]

theorem ndGet_singleton_ne {k k' : Label} (v : Node) (h : k' ≠ k) :
    ndGet [(k', v)] k = none := by
  simp [ndGet, h]

theorem ndGet_eq_none_iff (nd : NodeDict) (k : Label) :
    ndGet nd k = none ↔ ∀ p ∈ nd, p.1 ≠ k := by
  induction nd with
  | nil => simp [ndGet]
  | cons p rest ih =>
    obtain ⟨k', v⟩ := p
    by_cases hk : k' = k
    · subst hk; simp [ndGet]
    · simp [ndGet, hk, ih]

theorem ndGet_isSome_append {nd1 : NodeDict} {k : Label}
    (nd2 : NodeDict) (h : (ndGet nd1 k).isSome) :
    (ndGet (nd1 ++ nd2) k).isSome := by
  obtain ⟨v, hv⟩ := Option.isSome_iff_exists.mp h
  rw [ndGet_append_of_some nd2 hv]
  simp

theorem setItem_of_none {nd : NodeDict} {k : Label} (v : Node)
    (h : ndGet nd k = none) :
    NodeDict.setItem nd k v = Except.ok (nd ++ [(k, v)]) := by
  simp [NodeDict.setItem, h]

theorem setItem_of_some {nd : NodeDict} {k : Label} {old : Node} (v : Node)
    (h : ndGet nd k = some old) :
    NodeDict.setItem nd k v = Except.error (duplicateKeyMsg k) := by
  simp [NodeDict.setItem, h]

/- ## More registry lemmas -/

theorem Label.ne_of_cat {l1 l2 : Label} (h : l1.cat ≠ l2.cat) : l1 ≠ l2 :=
  fun he => h (he ▸ rfl)

theorem Label.ne_of_tag {l1 l2 : Label} (h : l1.tag ≠ l2.tag) : l1 ≠ l2 :=
  fun he => h (he ▸ rfl)

theorem Label.ne_of_subtag {l1 l2 : Label} (h : l1.subtag ≠ l2.subtag) :
    l1 ≠ l2 :=
  fun he => h (he ▸ rfl)

theorem ndGet_append_singleton_ne {nd : NodeDict} {k k' : Label} (v : Node)
    (h : k' ≠ k) : ndGet (nd ++ [(k', v)]) k = ndGet nd k := by
  cases hv : ndGet nd k with
  | some w => exact ndGet_append_of_some _ hv
  | none => rw [ndGet_append_of_none _ hv]; exact ndGet_singleton_ne v h

/- ## Reduction lemmas for the Except monad -/

theorem exc_bind_ok {α β : Type} (a : α) (f : α → Except String β) :
    (Except.ok a >>= f) = f a := rfl

theorem exc_bind_err {α β : Type} (e : String) (f : α → Except String β) :
    ((Except.error e : Except String α) >>= f) = Except.error e := rfl

/- ## C1: node-registry insertion guard -/

/-- C1: a second insertion into the node registry under a key that is
already present fails with an error and leaves the value stored under that
key unchanged, while insertion of a key currently absent always succeeds
(appending the new binding). -/
theorem node_registry_insertion (nd : NodeDict) (k : Label) (v : Node) :
    (∀ old, ndGet nd k = some old →
      NodeDict.setItem nd k v = Except.error (duplicateKeyMsg k) ∧
      ndGet (ndAfterSet nd k v) k = some old) ∧
    (ndGet nd k = none →
      NodeDict.setItem nd k v = Except.ok (nd ++ [(k, v)]) ∧
      ndGet (ndAfterSet nd k v) k = some v) := by
  constructor
  · intro old h
    refine ⟨setItem_of_some v h, ?_⟩
    simp [ndAfterSet, setItem_of_some v h, h]
  · intro h
    refine ⟨setItem_of_none v h, ?_⟩
    rw [ndAfterSet, setItem_of_none v h]
    rw [ndGet_append_of_none _ h]
    exact ndGet_singleton_self k v

/-- Concrete check of C1: inserting under the occupied key of a one-entry
registry fails and keeps the old value; inserting into the empty registry
succeeds. -/
theorem node_registry_insertion_witness :
    (NodeDict.setItem [(Label.mk "bus" "electricity" "all" "DE01",
        Node.bus (Label.mk "bus" "electricity" "all" "DE01"))]
        (Label.mk "bus" "electricity" "all" "DE01")
        (Node.bus (Label.mk "bus" "electricity" "all" "DE02")) =
      Except.error (duplicateKeyMsg (Label.mk "bus" "electricity" "all" "DE01")) ∧
     ndGet (ndAfterSet [(Label.mk "bus" "electricity" "all" "DE01",
        Node.bus (Label.mk "bus" "electricity" "all" "DE01"))]
        (Label.mk "bus" "electricity" "all" "DE01")
        (Node.bus (Label.mk "bus" "electricity" "all" "DE02")))
        (Label.mk "bus" "electricity" "all" "DE01") =
      some (Node.bus (Label.mk "bus" "electricity" "all" "DE01"))) ∧
    (NodeDict.setItem [] (Label.mk "bus" "electricity" "all" "DE01")
        (Node.bus (Label.mk "bus" "electricity" "all" "DE01")) =
      Except.ok [(Label.mk "bus" "electricity" "all" "DE01",
        Node.bus (Label.mk "bus" "electricity" "all" "DE01"))] ∧
     ndGet (ndAfterSet [] (Label.mk "bus" "electricity" "all" "DE01")
        (Node.bus (Label.mk "bus" "electricity" "all" "DE01")))
        (Label.mk "bus" "electricity" "all" "DE01") =
      some (Node.bus (Label.mk "bus" "electricity" "all" "DE01"))) :=
  ⟨(node_registry_insertion _ _ _).1
      (Node.bus (Label.mk "bus" "electricity" "all" "DE01")) (by decide),
   (node_registry_insertion _ _ _).2 (by decide)⟩

/- ## C5: volatile sources are created iff capacity times feed-in sum is positive -/

/-- C5: for a (region, technology) entry of the volatile_source table whose
feed-in series is present, a Source node is created if and only if
`capacity * sum(series) > 0`, and when created its single outbound Flow onto
the regional electricity bus has `actual_value = series`,
`nominal_value = capacity`, `fixed = true` and `emission = 0`; an entry
whose series sums to zero (or whose capacity is zero or missing) produces no
Source node. -/
theorem volatile_source_minimality (volatile_series : ColTable (List ℚ))
    (region vs_type : String) (capacity : Option ℚ) (nodes : NodeDict)
    (feedin : List ℚ)
    (hser : colGet volatile_series region vs_type = some feedin)
    (hfresh : ndGet nodes (Label.mk "source" "ee" vs_type region) = none) :
    ∃ nodes2,
      add_volatile_sources_entry volatile_series region vs_type capacity nodes
        = Except.ok nodes2 ∧
      (optGtZero (optMulQ capacity feedin.sum) = true →
        ndGet nodes2 (Label.mk "source" "ee" vs_type region) =
          some (Node.source (Label.mk "source" "ee" vs_type region)
            [(Label.mk "bus" "electricity" "all" region,
              { actual_value := some feedin, nominal_value := capacity,
                fixed := true, emission := some 0 })])) ∧
      (optGtZero (optMulQ capacity feedin.sum) = false →
        ndGet nodes2 (Label.mk "source" "ee" vs_type region) = none) := by
  have hne : (Label.mk "bus" "electricity" "all" region)
      ≠ (Label.mk "source" "ee" vs_type region) :=
    Label.ne_of_cat (show ("bus" : String) ≠ "source" by decide)
  unfold add_volatile_sources_entry
  rw [hser]
  simp only [pure_bind]
  by_cases hbus : ndGet nodes (Label.mk "bus" "electricity" "all" region) = none
  · rw [if_pos hbus, setItem_of_none _ hbus, exc_bind_ok]
    have hf1 : ndGet (nodes ++ [(Label.mk "bus" "electricity" "all" region,
        Node.bus (Label.mk "bus" "electricity" "all" region))])
        (Label.mk "source" "ee" vs_type region) = none := by
      rw [ndGet_append_singleton_ne _ hne]; exact hfresh
    by_cases hc : optGtZero (optMulQ capacity feedin.sum) = true
    · rw [if_pos hc, setItem_of_none _ hf1]
      refine ⟨_, rfl, fun _ => ?_, fun hcf => absurd hc (by simp [hcf])⟩
      rw [ndGet_append_of_none _ hf1, ndGet_singleton_self]
    · rw [if_neg hc]
      exact ⟨_, rfl, fun hct => absurd hct hc, fun _ => hf1⟩
  · rw [if_neg hbus]
    by_cases hc : optGtZero (optMulQ capacity feedin.sum) = true
    · rw [if_pos hc, setItem_of_none _ hfresh]
      refine ⟨_, rfl, fun _ => ?_, fun hcf => absurd hc (by simp [hcf])⟩
      rw [ndGet_append_of_none _ hfresh, ndGet_singleton_self]
    · rw [if_neg hc]
      exact ⟨_, rfl, fun hct => absurd hct hc, fun _ => hfresh⟩

/-- Concrete check of C5: capacity 5 with series [1, 0] creates the Source
with the stated Flow attributes. -/
theorem volatile_source_minimality_witness :
    ∃ nodes2,
      add_volatile_sources_entry [(("DE01", "wind"), [1, 0])] "DE01" "wind"
          (some 5) [] = Except.ok nodes2 ∧
      (optGtZero (optMulQ (some 5) (List.sum [(1 : ℚ), 0])) = true →
        ndGet nodes2 (Label.mk "source" "ee" "wind" "DE01") =
          some (Node.source (Label.mk "source" "ee" "wind" "DE01")
            [(Label.mk "bus" "electricity" "all" "DE01",
              { actual_value := some [(1 : ℚ), 0], nominal_value := some 5,
                fixed := true, emission := some 0 })])) ∧
      (optGtZero (optMulQ (some 5) (List.sum [(1 : ℚ), 0])) = false →
        ndGet nodes2 (Label.mk "source" "ee" "wind" "DE01") = none) :=
  volatile_source_minimality [(("DE01", "wind"), [1, 0])] "DE01" "wind"
    (some 5) [] [1, 0] (by decide) (by decide)

/- ## C6: missing feed-in series -/

/-- C6: for a (region, technology) entry whose feed-in series is absent from
the volatile_series table, the builder raises an error naming the
technology, capacity and region exactly when the capacity is greater than
zero; when the capacity is not greater than zero (zero, negative or
missing), the series defaults to [0], no error is raised, and no volatile
Source is added to the registry. -/
theorem volatile_missing_series (volatile_series : ColTable (List ℚ))
    (region vs_type : String) (capacity : Option ℚ) (nodes : NodeDict)
    (hser : colGet volatile_series region vs_type = none) :
    (optGtZero capacity = true →
      add_volatile_sources_entry volatile_series region vs_type capacity nodes
        = Except.error (missingSeriesMsg vs_type capacity region)) ∧
    (optGtZero capacity = false →
      ∃ nodes2,
        add_volatile_sources_entry volatile_series region vs_type capacity
            nodes = Except.ok nodes2 ∧
        ndGet nodes2 (Label.mk "source" "ee" vs_type region) =
          ndGet nodes (Label.mk "source" "ee" vs_type region)) := by
  have hne : (Label.mk "bus" "electricity" "all" region)
      ≠ (Label.mk "source" "ee" vs_type region) :=
    Label.ne_of_cat (show ("bus" : String) ≠ "source" by decide)
  constructor
  · intro hcap
    unfold add_volatile_sources_entry
    rw [hser]
    simp only [hcap, if_true]
    rfl
  · intro hcap
    have hzero : optGtZero (optMulQ capacity 0) = false := by
      cases capacity <;> simp [optGtZero, optMulQ]
    unfold add_volatile_sources_entry
    rw [hser]
    simp only [hcap, Bool.false_eq_true, if_false, pure_bind]
    by_cases hbus :
        ndGet nodes (Label.mk "bus" "electricity" "all" region) = none
    · rw [if_pos hbus, setItem_of_none _ hbus, exc_bind_ok, if_neg (by simp [hzero])]
      exact ⟨_, rfl, ndGet_append_singleton_ne _ hne⟩
    · rw [if_neg hbus, if_neg (by simp [hzero])]
      exact ⟨_, rfl, rfl⟩

/-- Concrete check of C6: a missing series with capacity 5 raises the
missing-series error; with a missing capacity it does not. -/
theorem volatile_missing_series_witness :
    ((optGtZero (some (5 : ℚ)) = true →
      add_volatile_sources_entry [] "DE01" "wind" (some 5) []
        = Except.error (missingSeriesMsg "wind" (some 5) "DE01")) ∧
     (optGtZero (some (5 : ℚ)) = false →
      ∃ nodes2,
        add_volatile_sources_entry [] "DE01" "wind" (some 5) []
          = Except.ok nodes2 ∧
        ndGet nodes2 (Label.mk "source" "ee" "wind" "DE01") =
          ndGet ([] : NodeDict) (Label.mk "source" "ee" "wind" "DE01"))) ∧
    ((optGtZero (none : Option ℚ) = true →
      add_volatile_sources_entry [] "DE01" "wind" none []
        = Except.error (missingSeriesMsg "wind" none "DE01")) ∧
     (optGtZero (none : Option ℚ) = false →
      ∃ nodes2,
        add_volatile_sources_entry [] "DE01" "wind" none []
          = Except.ok nodes2 ∧
        ndGet nodes2 (Label.mk "source" "ee" "wind" "DE01") =
          ndGet ([] : NodeDict) (Label.mk "source" "ee" "wind" "DE01"))) :=
  ⟨volatile_missing_series [] "DE01" "wind" (some 5) [] (by decide),
   volatile_missing_series [] "DE01" "wind" none [] (by decide)⟩

/- ## C3: transmission symmetry -/

/-- C3: a transmission row with endpoints b1, b2, capacity C and efficiency
E creates exactly two directed Transformers, b1 to b2 and b2 to b1, both
with conversion factor E on the output bus; when C is the unbounded
sentinel neither outbound Flow carries a nominal_value bound, otherwise
both outbound Flows have nominal_value C. -/
theorem transmission_symmetry (nodes : NodeDict) (b1 b2 : String)
    (capacity : TCap) (efficiency : ℚ)
    (hb1 : (ndGet nodes (Label.mk "bus" "electricity" "all" b1)).isSome)
    (hb2 : (ndGet nodes (Label.mk "bus" "electricity" "all" b2)).isSome)
    (hf1 : ndGet nodes (Label.mk "line" "electricity" b1 b2) = none)
    (hf2 : ndGet nodes (Label.mk "line" "electricity" b2 b1) = none)
    (hne : b1 ≠ b2) :
    add_transmission_line_row nodes b1 b2 capacity efficiency =
      Except.ok (nodes ++
        [(Label.mk "line" "electricity" b1 b2,
          Node.transformer (Label.mk "line" "electricity" b1 b2)
            [(Label.mk "bus" "electricity" "all" b1, {})]
            [(Label.mk "bus" "electricity" "all" b2,
              { nominal_value := capacity.toNominal })]
            [(Label.mk "bus" "electricity" "all" b2, efficiency)]),
         (Label.mk "line" "electricity" b2 b1,
          Node.transformer (Label.mk "line" "electricity" b2 b1)
            [(Label.mk "bus" "electricity" "all" b2, {})]
            [(Label.mk "bus" "electricity" "all" b1,
              { nominal_value := capacity.toNominal })]
            [(Label.mk "bus" "electricity" "all" b1, efficiency)])]) ∧
    TCap.toNominal TCap.inf = none ∧
    (∀ c : ℚ, TCap.toNominal (TCap.fin c) = some c) := by
  refine ⟨?_, rfl, fun c => rfl⟩
  have hL : (Label.mk "line" "electricity" b1 b2)
      ≠ (Label.mk "line" "electricity" b2 b1) :=
    Label.ne_of_subtag hne
  have hb1n : ¬ ndGet nodes (Label.mk "bus" "electricity" "all" b1) = none :=
    Option.isSome_iff_ne_none.mp hb1
  have hb2n : ¬ ndGet nodes (Label.mk "bus" "electricity" "all" b2) = none :=
    Option.isSome_iff_ne_none.mp hb2
  have hLskip : ∀ (t : Node) (k : Label), k.cat = "bus" →
      ndGet (nodes ++ [(Label.mk "line" "electricity" b1 b2, t)]) k
        = ndGet nodes k := by
    intro t k hk
    refine ndGet_append_singleton_ne _ (Label.ne_of_cat ?_)
    rw [hk]
    exact (show ("line" : String) ≠ "bus" by decide)
  cases capacity with
  | fin c =>
    simp only [add_transmission_line_row, List.foldlM,
      add_transmission_line_direction, TCap.toNominal]
    rw [if_neg hb1n, if_neg hb2n, setItem_of_none _ hf1]
    simp only [exc_bind_ok]
    rw [if_neg (by rw [hLskip _ _ rfl]; exact hb2n),
      if_neg (by rw [hLskip _ _ rfl]; exact hb1n),
      setItem_of_none _ (by rw [ndGet_append_singleton_ne _ hL]; exact hf2)]
    simp only [exc_bind_ok]
    rw [List.append_assoc]
    rfl
  | inf =>
    simp only [add_transmission_line_row, List.foldlM,
      add_transmission_line_direction, TCap.toNominal]
    rw [if_neg hb1n, if_neg hb2n, setItem_of_none _ hf1]
    simp only [exc_bind_ok]
    rw [if_neg (by rw [hLskip _ _ rfl]; exact hb2n),
      if_neg (by rw [hLskip _ _ rfl]; exact hb1n),
      setItem_of_none _ (by rw [ndGet_append_singleton_ne _ hL]; exact hf2)]
    simp only [exc_bind_ok]
    rw [List.append_assoc]
    rfl

/-- Concrete check of C3: a row DE01-DE02 with capacity 100 and efficiency
9/10 yields the two directed line Transformers. -/
theorem transmission_symmetry_witness :
    add_transmission_line_row
        [(Label.mk "bus" "electricity" "all" "DE01",
          Node.bus (Label.mk "bus" "electricity" "all" "DE01")),
         (Label.mk "bus" "electricity" "all" "DE02",
          Node.bus (Label.mk "bus" "electricity" "all" "DE02"))]
        "DE01" "DE02" (TCap.fin 100) (9 / 10) =
      Except.ok
        ([(Label.mk "bus" "electricity" "all" "DE01",
           Node.bus (Label.mk "bus" "electricity" "all" "DE01")),
          (Label.mk "bus" "electricity" "all" "DE02",
           Node.bus (Label.mk "bus" "electricity" "all" "DE02"))] ++
         [(Label.mk "line" "electricity" "DE01" "DE02",
           Node.transformer (Label.mk "line" "electricity" "DE01" "DE02")
             [(Label.mk "bus" "electricity" "all" "DE01", {})]
             [(Label.mk "bus" "electricity" "all" "DE02",
               { nominal_value := (TCap.fin 100).toNominal })]
             [(Label.mk "bus" "electricity" "all" "DE02", 9 / 10)]),
          (Label.mk "line" "electricity" "DE02" "DE01",
           Node.transformer (Label.mk "line" "electricity" "DE02" "DE01")
             [(Label.mk "bus" "electricity" "all" "DE02", {})]
             [(Label.mk "bus" "electricity" "all" "DE01",
               { nominal_value := (TCap.fin 100).toNominal })]
             [(Label.mk "bus" "electricity" "all" "DE01", 9 / 10)])]) ∧
    TCap.toNominal TCap.inf = none ∧
    (∀ c : ℚ, TCap.toNominal (TCap.fin c) = some c) :=
  transmission_symmetry _ "DE01" "DE02" (TCap.fin 100) (9 / 10)
    (by decide) (by decide) (by decide) (by decide) (by decide)

/- ## C4: missing endpoint bus -/

/-- C4: when an endpoint electricity bus of a transmission line is absent
from the registry, building that line direction fails with the error naming
the missing endpoint bus and the line, and produces no updated registry (so
the missing bus is never inserted on the error path). -/
theorem transmission_missing_bus (nodes : NodeDict) (bFrom bTo : String)
    (capacity : TCap) (efficiency : ℚ) :
    (ndGet nodes (Label.mk "bus" "electricity" "all" bFrom) = none →
      add_transmission_line_direction nodes bFrom bTo capacity efficiency =
        Except.error (missingBusMsg (Label.mk "bus" "electricity" "all" bFrom)
          (Label.mk "bus" "electricity" "all" bTo))) ∧
    ((ndGet nodes (Label.mk "bus" "electricity" "all" bFrom)).isSome →
      ndGet nodes (Label.mk "bus" "electricity" "all" bTo) = none →
      add_transmission_line_direction nodes bFrom bTo capacity efficiency =
        Except.error (missingBusMsg (Label.mk "bus" "electricity" "all" bTo)
          (Label.mk "bus" "electricity" "all" bFrom))) ∧
    (∀ msg, add_transmission_line_direction nodes bFrom bTo capacity
        efficiency = Except.error msg →
      ∀ nodes2, add_transmission_line_direction nodes bFrom bTo capacity
          efficiency ≠ Except.ok nodes2) := by
  refine ⟨?_, ?_, ?_⟩
  · intro h
    unfold add_transmission_line_direction
    rw [if_pos h]
  · intro h1 h2
    unfold add_transmission_line_direction
    rw [if_neg (Option.isSome_iff_ne_none.mp h1), if_pos h2]
  · intro msg hmsg nodes2 hok
    rw [hmsg] at hok
    exact Except.noConfusion hok

/-- Concrete check of C4: with an empty registry the first endpoint bus of
line DE01-DE02 is missing and the builder fails with the MissingBus error. -/
theorem transmission_missing_bus_witness :
    ((ndGet [] (Label.mk "bus" "electricity" "all" "DE01") = none →
      add_transmission_line_direction [] "DE01" "DE02" (TCap.fin 100)
          (9 / 10) =
        Except.error (missingBusMsg (Label.mk "bus" "electricity" "all" "DE01")
          (Label.mk "bus" "electricity" "all" "DE02"))) ∧
    ((ndGet [] (Label.mk "bus" "electricity" "all" "DE01")).isSome →
      ndGet [] (Label.mk "bus" "electricity" "all" "DE02") = none →
      add_transmission_line_direction [] "DE01" "DE02" (TCap.fin 100)
          (9 / 10) =
        Except.error (missingBusMsg (Label.mk "bus" "electricity" "all" "DE02")
          (Label.mk "bus" "electricity" "all" "DE01"))) ∧
    (∀ msg, add_transmission_line_direction [] "DE01" "DE02" (TCap.fin 100)
        (9 / 10) = Except.error msg →
      ∀ nodes2, add_transmission_line_direction [] "DE01" "DE02"
          (TCap.fin 100) (9 / 10) ≠ Except.ok nodes2)) ∧
    ndGet [] (Label.mk "bus" "electricity" "all" "DE01") = none :=
  ⟨transmission_missing_bus [] "DE01" "DE02" (TCap.fin 100) (9 / 10), rfl⟩

/- ## C8: horizon length -/

/-- C8: initialising the energy system with leap year 2016 yields an
8784-step hourly horizon and with non-leap year 2015 an 8760-step horizon;
with debug set the horizon is exactly 3 steps for every calendar year; a
year that cannot be interpreted as a calendar year makes `table2es` fail
before `create_nodes` is ever invoked (the error is the same whatever node
builder is supplied). -/
theorem horizon_length :
    initialise_energy_system false (some 2016) = Except.ok 8784 ∧
    initialise_energy_system false (some 2015) = Except.ok 8760 ∧
    (∀ y : Int, initialise_energy_system true (some y) = Except.ok 3) ∧
    (∀ (debug : Bool) (create_nodes : Unit → Except String NodeDict),
      ∃ msg, table2es debug none create_nodes = Except.error msg) := by
  refine ⟨rfl, rfl, fun y => rfl, fun debug create_nodes => ?_⟩
  cases debug
  · exact ⟨invalidYearMsg, rfl⟩
  · exact ⟨dateRangeMsg, rfl⟩

/- ## C9: conventional mobility -/

theorem ndGetE_of_some {nd : NodeDict} {k : Label} {v : Node}
    (h : ndGet nd k = some v) : ndGetE nd k = Except.ok v := by
  simp [ndGetE, h]

theorem pdAlign_eq_none {s : PdSeries} {lab : String}
    (h : ∀ c ∈ s, c.1 ≠ lab) : pdAlign s lab = none := by
  unfold pdAlign
  rw [List.find?_eq_none.mpr (fun c hc => by simp [h c hc])]

/-- C9 (code bug): the mobility builder is meant to attach, per fuel, a
Sink drawing the constant series energy / number_of_timesteps at every
timestep, with energy the sum over technologies of
mileage * specific_demand * energy_content / 10^6.  But
`energy = energy_tp.sum()` is a technology-labelled Series, so
`pd.Series(energy / len(idx), index=idx)` reindexes it to the datetime
index: whenever no timestamp of the index is a technology label, the
fix_value the code actually attaches is NaN at every timestep, and in
particular never equals any constant rational value. -/
theorem conventional_mobility_reindexed_to_nan
    (mileage spec_demand energy_content : PdFrame) (idx : List String)
    (hdisj : ∀ i ∈ idx,
      ∀ c ∈ mobility_energy mileage spec_demand energy_content,
        c.1 ≠ i) :
    ((mobility_fix_value mileage spec_demand energy_content idx).map
      Prod.fst = idx) ∧
    (∀ c ∈ mobility_fix_value mileage spec_demand energy_content idx,
      c.2 = none) ∧
    (∀ q : ℚ,
      ∀ c ∈ mobility_fix_value mileage spec_demand energy_content idx,
        c.2 ≠ some q) := by
  have hnone : ∀ i ∈ idx, pdAlign
      (pdDivNat (mobility_energy mileage spec_demand energy_content)
        idx.length) i = none := by
    intro i hi
    refine pdAlign_eq_none ?_
    intro c hc
    obtain ⟨c0, hc0, rfl⟩ := List.mem_map.mp hc
    exact hdisj i hi c0 hc0
  have hcnone : ∀ c ∈ mobility_fix_value mileage spec_demand
      energy_content idx, c.2 = none := by
    intro c hc
    simp only [mobility_fix_value, pdSeriesWithIndex] at hc
    obtain ⟨i, hi, rfl⟩ := List.mem_map.mp hc
    exact hnone i hi
  refine ⟨?_, hcnone, ?_⟩
  · simp only [mobility_fix_value, pdSeriesWithIndex, List.map_map]
    exact List.map_id idx
  · intro q c hc hq
    rw [hcnone c hc] at hq
    exact Option.noConfusion hq

/-- Concrete failing input for C9: one technology column car with mileage
2, specific demand 3 and energy content 10^6 over a 2-step datetime
index.  The intended constant draw would be (2*3*10^6/10^6)/2 = 3 — the
annual energy 6 does sit in the Series under the label car — but the
series the code attaches is NaN at both timesteps. -/
theorem conventional_mobility_reindexed_to_nan_witness :
    (((mobility_fix_value [("car", [("2014", some 2)])]
        [("car", [("2014", some 3)])] [("car", [("2014", some 1000000)])]
        ["2014-01-01 00:00", "2014-01-01 01:00"]).map Prod.fst =
      ["2014-01-01 00:00", "2014-01-01 01:00"]) ∧
     (∀ c ∈ mobility_fix_value [("car", [("2014", some 2)])]
        [("car", [("2014", some 3)])] [("car", [("2014", some 1000000)])]
        ["2014-01-01 00:00", "2014-01-01 01:00"], c.2 = none) ∧
     (∀ q : ℚ, ∀ c ∈ mobility_fix_value [("car", [("2014", some 2)])]
        [("car", [("2014", some 3)])] [("car", [("2014", some 1000000)])]
        ["2014-01-01 00:00", "2014-01-01 01:00"], c.2 ≠ some q)) ∧
    pdAlign (mobility_energy [("car", [("2014", some 2)])]
      [("car", [("2014", some 3)])] [("car", [("2014", some 1000000)])])
      "car" = some 6 :=
  ⟨conventional_mobility_reindexed_to_nan
      [("car", [("2014", some 2)])] [("car", [("2014", some 3)])]
      [("car", [("2014", some 1000000)])]
      ["2014-01-01 00:00", "2014-01-01 01:00"] (by decide),
   by
    simp only [mobility_energy, mobility_energy_tp, pdFrameSum,
      pdFrameDiv, pdFrameMulRow, pdFrameMul, pdMul, pdIloc0, pdAlign,
      optMulCells, List.find?, List.map]
    norm_num⟩

/- ## C2: CHP transformer parameterisation -/

theorem ndGet_append_of_keys_ne {nd tail : NodeDict} {k : Label}
    (h : ∀ p ∈ tail, p.1 ≠ k) :
    ndGet (nd ++ tail) k = ndGet nd k := by
  cases hv : ndGet nd k with
  | some w => exact ndGet_append_of_some _ hv
  | none =>
    rw [ndGet_append_of_none _ hv]
    exact (ndGet_eq_none_iff tail k).mpr h

theorem spaceToUnderscore_idem (s : String) :
    spaceToUnderscore (spaceToUnderscore s) = spaceToUnderscore s := by
  unfold spaceToUnderscore replaceChar
  apply congrArg String.mk
  show List.map _ (List.map _ s.data) = _
  rw [List.map_map]
  apply List.map_congr_left
  intro c _
  by_cases hc : c = ' '
  · subst hc; rfl
  · simp [Function.comp, hc]

theorem create_fuel_bus_spec (nodes : NodeDict) (fuel region : String)
    (cs : CommodityData) :
    ∃ nodes2, create_fuel_bus_with_source nodes fuel region cs =
        Except.ok nodes2 ∧
      (∀ k : Label, k.tag ≠ "commodity" → ndGet nodes2 k = ndGet nodes k) ∧
      (ndGet nodes2
        (Label.mk "bus" "commodity" (spaceToUnderscore fuel) region)).isSome := by
  have hne : (Label.mk "source" "commodity" (spaceToUnderscore fuel) region)
      ≠ (Label.mk "bus" "commodity" (spaceToUnderscore fuel) region) :=
    Label.ne_of_cat (show ("source" : String) ≠ "bus" by decide)
  unfold create_fuel_bus_with_source
  by_cases hbus : ndGet nodes
      (Label.mk "bus" "commodity" (spaceToUnderscore fuel) region) = none
  · rw [if_pos hbus, setItem_of_none _ hbus]
    simp only [exc_bind_ok]
    by_cases hcs : ndGet (nodes ++ [(Label.mk "bus" "commodity"
        (spaceToUnderscore fuel) region,
        Node.bus (Label.mk "bus" "commodity" (spaceToUnderscore fuel) region))])
        (Label.mk "source" "commodity" (spaceToUnderscore fuel) region) = none
    · rw [if_pos hcs, setItem_of_none _ hcs]
      refine ⟨_, rfl, ?_, ?_⟩
      · intro k hk
        rw [ndGet_append_singleton_ne _ (Label.ne_of_tag (fun h => hk h.symm)),
          ndGet_append_singleton_ne _ (Label.ne_of_tag (fun h => hk h.symm))]
      · rw [ndGet_append_singleton_ne _ hne,
          ndGet_append_of_none _ hbus, ndGet_singleton_self]
        rfl
    · rw [if_neg hcs]
      refine ⟨_, rfl, ?_, ?_⟩
      · intro k hk
        rw [ndGet_append_singleton_ne _ (Label.ne_of_tag (fun h => hk h.symm))]
      · rw [ndGet_append_of_none _ hbus, ndGet_singleton_self]
        rfl
  · rw [if_neg hbus]
    simp only [pure_bind]
    by_cases hcs : ndGet nodes
        (Label.mk "source" "commodity" (spaceToUnderscore fuel) region) = none
    · rw [if_pos hcs, setItem_of_none _ hcs]
      refine ⟨_, rfl, ?_, ?_⟩
      · intro k hk
        rw [ndGet_append_singleton_ne _ (Label.ne_of_tag (fun h => hk h.symm))]
      · rw [ndGet_append_singleton_ne _ hne]
        exact Option.isSome_iff_ne_none.mpr hbus
    · rw [if_neg hcs]
      exact ⟨nodes, rfl, fun k hk => rfl, Option.isSome_iff_ne_none.mpr hbus⟩

theorem add_pp_plant_spec (region fuel : String) (params : TrsfParams)
    (bus_fuel : Label) (nodes : NodeDict)
    (hbf : (ndGet nodes bus_fuel).isSome)
    (helec : (ndGet nodes (Label.mk "bus" "electricity" "all" region)).isSome)
    (hpp : ndGet nodes
      (Label.mk "trsf" "pp" (spaceToUnderscore fuel) region) = none) :
    ∃ nodes2, add_pp_plant region fuel params bus_fuel nodes =
        Except.ok nodes2 ∧
      ∀ k : Label, k ≠ Label.mk "trsf" "pp" (spaceToUnderscore fuel) region →
        ndGet nodes2 k = ndGet nodes k := by
  unfold add_pp_plant
  by_cases hc : 0 < params.capacity
  · obtain ⟨vf, hvf⟩ := Option.isSome_iff_exists.mp hbf
    obtain ⟨ve, hve⟩ := Option.isSome_iff_exists.mp helec
    rw [if_pos hc, ndGetE_of_some hvf]
    simp only [exc_bind_ok]
    rw [ndGetE_of_some hve]
    simp only [exc_bind_ok]
    rw [setItem_of_none _ hpp]
    exact ⟨_, rfl, fun k hk => ndGet_append_singleton_ne _ (Ne.symm hk)⟩
  · rw [if_neg hc]
    exact ⟨nodes, rfl, fun k hk => rfl⟩

theorem add_chp_plant_spec (region fuel : String) (params : TrsfParams)
    (bus_fuel : Label) (nodes : NodeDict)
    (hchp : 0 < params.capacity_heat_chp)
    (hbf : (ndGet nodes bus_fuel).isSome)
    (helec : (ndGet nodes (Label.mk "bus" "electricity" "all" region)).isSome)
    (hheat : (ndGet nodes (Label.mk "bus" "heat" "district" region)).isSome)
    (hch : ndGet nodes
      (Label.mk "trsf" "chp" (spaceToUnderscore fuel) region) = none) :
    ∃ nodes2, add_chp_plant region fuel params bus_fuel nodes =
        Except.ok nodes2 ∧
      ndGet nodes2 (Label.mk "trsf" "chp" (spaceToUnderscore fuel) region) =
        some (Node.transformer
          (Label.mk "trsf" "chp" (spaceToUnderscore fuel) region)
          [(bus_fuel,
            { nominal_value := some (params.capacity_heat_chp /
                params.efficiency_heat_chp),
              summed_max := some ((params.limit_heat_chp /
                params.efficiency_heat_chp) / (params.capacity_heat_chp /
                params.efficiency_heat_chp)) })]
          [(Label.mk "bus" "electricity" "all" region, {}),
           (Label.mk "bus" "heat" "district" region, {})]
          [(Label.mk "bus" "electricity" "all" region,
            params.efficiency_elec_chp),
           (Label.mk "bus" "heat" "district" region,
            params.efficiency_heat_chp)]) ∧
      ∀ k : Label, k ≠ Label.mk "trsf" "chp" (spaceToUnderscore fuel) region →
        ndGet nodes2 k = ndGet nodes k := by
  obtain ⟨vf, hvf⟩ := Option.isSome_iff_exists.mp hbf
  obtain ⟨ve, hve⟩ := Option.isSome_iff_exists.mp helec
  obtain ⟨vh, hvh⟩ := Option.isSome_iff_exists.mp hheat
  unfold add_chp_plant
  rw [if_pos hchp, ndGetE_of_some hvf]
  simp only [exc_bind_ok]
  rw [ndGetE_of_some hve]
  simp only [exc_bind_ok]
  rw [ndGetE_of_some hvh]
  simp only [exc_bind_ok]
  rw [setItem_of_none _ hch]
  refine ⟨_, rfl, ?_, fun k hk => ndGet_append_singleton_ne _ (Ne.symm hk)⟩
  rw [ndGet_append_of_none _ hch, ndGet_singleton_self]

theorem add_hp_plant_spec (region fuel : String) (params : TrsfParams)
    (bus_fuel : Label) (nodes : NodeDict)
    (hbf : (ndGet nodes bus_fuel).isSome)
    (hheat : (ndGet nodes (Label.mk "bus" "heat" "district" region)).isSome)
    (hhp : ndGet nodes
      (Label.mk "trsf" "hp" (spaceToUnderscore fuel) region) = none) :
    ∃ nodes2, add_hp_plant region fuel params bus_fuel nodes =
        Except.ok nodes2 ∧
      ∀ k : Label, k ≠ Label.mk "trsf" "hp" (spaceToUnderscore fuel) region →
        ndGet nodes2 k = ndGet nodes k := by
  unfold add_hp_plant
  by_cases hc : 0 < params.capacity_hp
  · obtain ⟨vf, hvf⟩ := Option.isSome_iff_exists.mp hbf
    obtain ⟨vh, hvh⟩ := Option.isSome_iff_exists.mp hheat
    rw [if_pos hc, ndGetE_of_some hvf]
    simp only [exc_bind_ok]
    rw [ndGetE_of_some hvh]
    simp only [exc_bind_ok]
    rw [setItem_of_none _ hhp]
    exact ⟨_, rfl, fun k hk => ndGet_append_singleton_ne _ (Ne.symm hk)⟩
  · rw [if_neg hc]
    exact ⟨nodes, rfl, fun k hk => rfl⟩

theorem add_plant_branches_chp_spec (region fuel : String)
    (params : TrsfParams) (bus_fuel : Label) (nodes : NodeDict)
    (hbfcat : bus_fuel.cat = "bus")
    (hchp : 0 < params.capacity_heat_chp)
    (hbf : (ndGet nodes bus_fuel).isSome)
    (helec : (ndGet nodes (Label.mk "bus" "electricity" "all" region)).isSome)
    (hheat : (ndGet nodes (Label.mk "bus" "heat" "district" region)).isSome)
    (hpp : ndGet nodes
      (Label.mk "trsf" "pp" (spaceToUnderscore fuel) region) = none)
    (hch : ndGet nodes
      (Label.mk "trsf" "chp" (spaceToUnderscore fuel) region) = none)
    (hhp : ndGet nodes
      (Label.mk "trsf" "hp" (spaceToUnderscore fuel) region) = none) :
    ∃ nodes2, add_plant_branches region fuel params bus_fuel nodes =
        Except.ok nodes2 ∧
      ndGet nodes2 (Label.mk "trsf" "chp" (spaceToUnderscore fuel) region) =
        some (Node.transformer
          (Label.mk "trsf" "chp" (spaceToUnderscore fuel) region)
          [(bus_fuel,
            { nominal_value := some (params.capacity_heat_chp /
                params.efficiency_heat_chp),
              summed_max := some ((params.limit_heat_chp /
                params.efficiency_heat_chp) / (params.capacity_heat_chp /
                params.efficiency_heat_chp)) })]
          [(Label.mk "bus" "electricity" "all" region, {}),
           (Label.mk "bus" "heat" "district" region, {})]
          [(Label.mk "bus" "electricity" "all" region,
            params.efficiency_elec_chp),
           (Label.mk "bus" "heat" "district" region,
            params.efficiency_heat_chp)]) := by
  have hbf_ne : ∀ t : String, t ≠ "bus" →
      ∀ sub reg : String, bus_fuel ≠ Label.mk "trsf" t sub reg := by
    intro t ht sub reg
    refine Label.ne_of_cat ?_
    rw [hbfcat]
    exact (show ("bus" : String) ≠ "trsf" by decide)
  obtain ⟨nd1, h1, hk1⟩ :=
    add_pp_plant_spec region fuel params bus_fuel nodes hbf helec hpp
  have hbf1 : (ndGet nd1 bus_fuel).isSome := by
    rw [hk1 _ (hbf_ne "pp" (by decide) _ _)]; exact hbf
  have helec1 : (ndGet nd1
      (Label.mk "bus" "electricity" "all" region)).isSome := by
    rw [hk1 _ (Label.ne_of_cat (show ("bus" : String) ≠ "trsf" by decide))]
    exact helec
  have hheat1 : (ndGet nd1
      (Label.mk "bus" "heat" "district" region)).isSome := by
    rw [hk1 _ (Label.ne_of_cat (show ("bus" : String) ≠ "trsf" by decide))]
    exact hheat
  have hch1 : ndGet nd1
      (Label.mk "trsf" "chp" (spaceToUnderscore fuel) region) = none := by
    rw [hk1 _ (Label.ne_of_tag (show ("chp" : String) ≠ "pp" by decide))]
    exact hch
  have hhp1 : ndGet nd1
      (Label.mk "trsf" "hp" (spaceToUnderscore fuel) region) = none := by
    rw [hk1 _ (Label.ne_of_tag (show ("hp" : String) ≠ "pp" by decide))]
    exact hhp
  obtain ⟨nd2, h2, hget2, hk2⟩ := add_chp_plant_spec region fuel params
    bus_fuel nd1 hchp hbf1 helec1 hheat1 hch1
  have hbf2 : (ndGet nd2 bus_fuel).isSome := by
    rw [hk2 _ (hbf_ne "chp" (by decide) _ _)]; exact hbf1
  have hheat2 : (ndGet nd2
      (Label.mk "bus" "heat" "district" region)).isSome := by
    rw [hk2 _ (Label.ne_of_cat (show ("bus" : String) ≠ "trsf" by decide))]
    exact hheat1
  have hhp2 : ndGet nd2
      (Label.mk "trsf" "hp" (spaceToUnderscore fuel) region) = none := by
    rw [hk2 _ (Label.ne_of_tag (show ("hp" : String) ≠ "chp" by decide))]
    exact hhp1
  obtain ⟨nd3, h3, hk3⟩ := add_hp_plant_spec region fuel params
    bus_fuel nd2 hbf2 hheat2 hhp2
  refine ⟨nd3, ?_, ?_⟩
  · unfold add_plant_branches
    rw [h1]
    simp only [exc_bind_ok]
    rw [h2]
    simp only [exc_bind_ok]
    exact h3
  · rw [hk3 _ (Label.ne_of_tag (show ("chp" : String) ≠ "hp" by decide))]
    exact hget2

/-- C2: for every (region, fuel) transformer column with
`capacity_heat_chp > 0`, the plant builder creates a CHP Transformer whose
input Flow has `nominal_value = capacity_heat_chp / efficiency_heat_chp`
and `summed_max = (limit_heat_chp / efficiency_heat_chp) /
(capacity_heat_chp / efficiency_heat_chp)`, with conversion factor
`efficiency_elec_chp` on the electricity output and `efficiency_heat_chp`
on the heat output. -/
theorem chp_plant_construction (cs : CommodityData)
    (extra_regions : List String) (region fuel : String)
    (params : TrsfParams) (nodes : NodeDict)
    (hchp : 0 < params.capacity_heat_chp)
    (helec : (ndGet nodes (Label.mk "bus" "electricity" "all" region)).isSome)
    (hheat : (ndGet nodes (Label.mk "bus" "heat" "district" region)).isSome)
    (hpp : ndGet nodes
      (Label.mk "trsf" "pp" (spaceToUnderscore fuel) region) = none)
    (hch : ndGet nodes
      (Label.mk "trsf" "chp" (spaceToUnderscore fuel) region) = none)
    (hhp : ndGet nodes
      (Label.mk "trsf" "hp" (spaceToUnderscore fuel) region) = none) :
    ∃ nodes2 bus_fuel,
      add_power_and_heat_plants_entry cs extra_regions region fuel params
        nodes = Except.ok nodes2 ∧
      ndGet nodes2 (Label.mk "trsf" "chp" (spaceToUnderscore fuel) region) =
        some (Node.transformer
          (Label.mk "trsf" "chp" (spaceToUnderscore fuel) region)
          [(bus_fuel,
            { nominal_value := some (params.capacity_heat_chp /
                params.efficiency_heat_chp),
              summed_max := some ((params.limit_heat_chp /
                params.efficiency_heat_chp) / (params.capacity_heat_chp /
                params.efficiency_heat_chp)) })]
          [(Label.mk "bus" "electricity" "all" region, {}),
           (Label.mk "bus" "heat" "district" region, {})]
          [(Label.mk "bus" "electricity" "all" region,
            params.efficiency_elec_chp),
           (Label.mk "bus" "heat" "district" region,
            params.efficiency_heat_chp)]) := by
  unfold add_power_and_heat_plants_entry
  by_cases hx : region ∈ extra_regions
  · rw [if_pos hx]
    obtain ⟨nodes1, h0, hkeep, hbf0⟩ :=
      create_fuel_bus_spec nodes fuel region cs
    rw [h0]
    simp only [exc_bind_ok]
    obtain ⟨nodes2, hrun, hget⟩ := add_plant_branches_chp_spec region fuel
      params (Label.mk "bus" "commodity" (spaceToUnderscore fuel) region)
      nodes1 rfl hchp hbf0
      (by rw [hkeep _ (show ("electricity" : String) ≠ "commodity" by decide)]
          exact helec)
      (by rw [hkeep _ (show ("heat" : String) ≠ "commodity" by decide)]
          exact hheat)
      (by rw [hkeep _ (show ("pp" : String) ≠ "commodity" by decide)]
          exact hpp)
      (by rw [hkeep _ (show ("chp" : String) ≠ "commodity" by decide)]
          exact hch)
      (by rw [hkeep _ (show ("hp" : String) ≠ "commodity" by decide)]
          exact hhp)
    exact ⟨nodes2, _, hrun, hget⟩
  · rw [if_neg hx]
    by_cases hfb : ndGet nodes
        (Label.mk "bus" "commodity" (spaceToUnderscore fuel) "DE") = none
    · rw [if_pos hfb]
      obtain ⟨nodes1, h0, hkeep, hbf0⟩ :=
        create_fuel_bus_spec nodes (spaceToUnderscore fuel) "DE" cs
      rw [spaceToUnderscore_idem] at hbf0
      rw [h0]
      simp only [exc_bind_ok]
      obtain ⟨nodes2, hrun, hget⟩ := add_plant_branches_chp_spec region fuel
        params (Label.mk "bus" "commodity" (spaceToUnderscore fuel) "DE")
        nodes1 rfl hchp hbf0
        (by rw [hkeep _
              (show ("electricity" : String) ≠ "commodity" by decide)]
            exact helec)
        (by rw [hkeep _ (show ("heat" : String) ≠ "commodity" by decide)]
            exact hheat)
        (by rw [hkeep _ (show ("pp" : String) ≠ "commodity" by decide)]
            exact hpp)
        (by rw [hkeep _ (show ("chp" : String) ≠ "commodity" by decide)]
            exact hch)
        (by rw [hkeep _ (show ("hp" : String) ≠ "commodity" by decide)]
            exact hhp)
      exact ⟨nodes2, _, hrun, hget⟩
    · rw [if_neg hfb]
      obtain ⟨nodes2, hrun, hget⟩ := add_plant_branches_chp_spec region fuel
        params (Label.mk "bus" "commodity" (spaceToUnderscore fuel) "DE")
        nodes rfl hchp (Option.isSome_iff_ne_none.mpr hfb) helec hheat
        hpp hch hhp
      exact ⟨nodes2, _, hrun, hget⟩

/-- Concrete check of C2: capacity_heat_chp 800, efficiency_heat_chp 1/2,
limit_heat_chp 1600 and efficiency_elec_chp 2/5 yield an input Flow with
nominal_value 1600 and summed_max 2. -/
theorem chp_plant_construction_witness :
    ∃ nodes2 bus_fuel,
      add_power_and_heat_plants_entry
          ⟨fun _ => 0, fun _ => 0⟩ [] "DE01" "coal"
          ⟨0, TCap.inf, 0, 800, 1600, 2 / 5, 1 / 2, 0, 0, 0⟩
          [(Label.mk "bus" "electricity" "all" "DE01",
            Node.bus (Label.mk "bus" "electricity" "all" "DE01")),
           (Label.mk "bus" "heat" "district" "DE01",
            Node.bus (Label.mk "bus" "heat" "district" "DE01"))]
        = Except.ok nodes2 ∧
      ndGet nodes2 (Label.mk "trsf" "chp" "coal" "DE01") =
        some (Node.transformer (Label.mk "trsf" "chp" "coal" "DE01")
          [(bus_fuel, { nominal_value := some 1600, summed_max := some 2 })]
          [(Label.mk "bus" "electricity" "all" "DE01", {}),
           (Label.mk "bus" "heat" "district" "DE01", {})]
          [(Label.mk "bus" "electricity" "all" "DE01", 2 / 5),
           (Label.mk "bus" "heat" "district" "DE01", 1 / 2)]) := by
  obtain ⟨n2, bf, h1, h2⟩ := chp_plant_construction
    ⟨fun _ => 0, fun _ => 0⟩ [] "DE01" "coal"
    ⟨0, TCap.inf, 0, 800, 1600, 2 / 5, 1 / 2, 0, 0, 0⟩
    [(Label.mk "bus" "electricity" "all" "DE01",
      Node.bus (Label.mk "bus" "electricity" "all" "DE01")),
     (Label.mk "bus" "heat" "district" "DE01",
      Node.bus (Label.mk "bus" "heat" "district" "DE01"))]
    (by norm_num) (by decide) (by decide) (by decide) (by decide) (by decide)
  have hs : spaceToUnderscore "coal" = "coal" := by decide
  rw [hs] at h2
  norm_num at h2
  exact ⟨n2, bf, h1, h2⟩

/- ## C10: the builders mutate the shared table collection -/

theorem exc_ok_of_bind_ok {α β : Type} {e : Except String α}
    {f : α → Except String β} {b : β} (h : (e >>= f) = Except.ok b) :
    ∃ a, e = Except.ok a ∧ f a = Except.ok b := by
  cases e with
  | ok a => exact ⟨a, rfl, h⟩
  | error s =>
    exact Except.noConfusion (show Except.error s = Except.ok b from h)

theorem swapped_col_eq {α : Type} (t : ColTable α) (h : swapColLevels t = t) :
    ∀ c ∈ t, c.1.1 = c.1.2 := by
  induction t with
  | nil => intro c hc; cases hc
  | cons a t ih =>
    intro c hc
    have h2 : ((a.1.2, a.1.1), a.2) = a ∧ swapColLevels t = t := by
      have h3 := h
      simp only [swapColLevels, List.map_cons, List.cons.injEq] at h3
      exact ⟨h3.1, h3.2⟩
    rcases List.mem_cons.mp hc with rfl | hc2
    · have h3 := congrArg (fun x => x.1.1) h2.1
      simpa using h3.symm
    · exact ih h2.2 c hc2

/-- C10: compilation mutates the shared input tables: the
electricity-demand builder swaps the two column levels of the shared
demand_series table in place and the storage builder does the same to the
storages table, so after compilation those tables are permanently
reindexed as (series-name, region) instead of (region, series-name); the
district-heating builder fails on the original orientation, and its column
lookup succeeds exactly because it runs after the electricity-demand
builder has swapped the levels in place. -/
theorem table_collection_frame_effect
    (demand_series : ColTable (List ℚ))
    (storages_table : ColTable StorageParams)
    (nodes nodesS : NodeDict)
    (hcol : ∃ c ∈ demand_series, c.1.1 ≠ c.1.2)
    (hscol : ∃ c ∈ storages_table, c.1.1 ≠ c.1.2)
    (hnodh : ∀ c ∈ demand_series, c.1.1 ≠ "district heating")
    (hdh : ∃ c ∈ demand_series, c.1.2 = "district heating") :
    (∀ res, add_electricity_demand demand_series nodes = Except.ok res →
      res.1 = swapColLevels demand_series ∧ res.1 ≠ demand_series) ∧
    (∀ res, add_storages storages_table nodesS = Except.ok res →
      res.1 = swapColLevels storages_table ∧ res.1 ≠ storages_table) ∧
    (∃ msg, add_district_heating_systems demand_series nodes =
      Except.error msg) ∧
    (∀ res, add_electricity_demand demand_series nodes = Except.ok res →
      ∃ sub, colSelectE res.1 "district heating" = Except.ok sub) := by
  have hmain : ∀ res,
      add_electricity_demand demand_series nodes = Except.ok res →
      res.1 = swapColLevels demand_series := by
    intro res hres
    unfold add_electricity_demand at hres
    obtain ⟨sub, h1, h2⟩ := exc_ok_of_bind_ok hres
    obtain ⟨nd, h3, h4⟩ := exc_ok_of_bind_ok h2
    have h5 : (swapColLevels demand_series, nd) = res := Except.ok.inj h4
    rw [← h5]
  have hsmain : ∀ res, add_storages storages_table nodesS = Except.ok res →
      res.1 = swapColLevels storages_table := by
    intro res hres
    unfold add_storages at hres
    obtain ⟨sub, h1, h2⟩ := exc_ok_of_bind_ok hres
    obtain ⟨nd, h3, h4⟩ := exc_ok_of_bind_ok h2
    have h5 : (swapColLevels storages_table, nd) = res := Except.ok.inj h4
    rw [← h5]
  refine ⟨fun res hres => ⟨hmain res hres, ?_⟩,
    fun res hres => ⟨hsmain res hres, ?_⟩, ?_, ?_⟩
  · rw [hmain res hres]
    intro heq
    obtain ⟨c, hcmem, hcne⟩ := hcol
    exact hcne (swapped_col_eq demand_series heq c hcmem)
  · rw [hsmain res hres]
    intro heq
    obtain ⟨c, hcmem, hcne⟩ := hscol
    exact hcne (swapped_col_eq storages_table heq c hcmem)
  · have hfil : demand_series.filter
        (fun c => c.1.1 == "district heating") = [] :=
      List.filter_eq_nil_iff.mpr (fun c hc => by simp [hnodh c hc])
    have hsel : colSelectE demand_series "district heating" =
        Except.error ("KeyError: " ++ "district heating") := by
      simp only [colSelectE, hfil, List.map_nil]
      rfl
    refine ⟨"KeyError: " ++ "district heating", ?_⟩
    unfold add_district_heating_systems
    rw [hsel]
    rfl
  · intro res hres
    rw [hmain res hres]
    obtain ⟨c, hcmem, hceq⟩ := hdh
    have hmem : ((c.1.2, c.1.1), c.2) ∈ swapColLevels demand_series :=
      List.mem_map_of_mem _ hcmem
    have hfil2 : ((c.1.2, c.1.1), c.2) ∈ (swapColLevels demand_series).filter
        (fun x => x.1.1 == "district heating") :=
      List.mem_filter.mpr ⟨hmem, by simp [hceq]⟩
    have hsub : (((c.1.2, c.1.1), c.2).1.2, ((c.1.2, c.1.1), c.2).2) ∈
        ((swapColLevels demand_series).filter
          (fun x => x.1.1 == "district heating")).map
          (fun x => (x.1.2, x.2)) :=
      List.mem_map_of_mem _ hfil2
    simp only [colSelectE]
    cases hsubl : ((swapColLevels demand_series).filter
        (fun x => x.1.1 == "district heating")).map
        (fun x => (x.1.2, x.2)) with
    | nil => rw [hsubl] at hsub; cases hsub
    | cons a l => exact ⟨a :: l, rfl⟩

/-- Concrete check of C10: a demand_series table with columns
(DE01, electrical_load) and (DE01, district heating) and a storages table
with column (DE01, phes). -/
theorem table_collection_frame_effect_witness :
    (∀ res, add_electricity_demand
        [(("DE01", "electrical_load"), [1]),
         (("DE01", "district heating"), [1])] [] = Except.ok res →
      res.1 = swapColLevels
        [(("DE01", "electrical_load"), [1]),
         (("DE01", "district heating"), [1])] ∧
      res.1 ≠ [(("DE01", "electrical_load"), [1]),
        (("DE01", "district heating"), [1])]) ∧
    (∀ res, add_storages [(("DE01", "phes"),
        StorageParams.mk 1 1 1 1 1)] [] = Except.ok res →
      res.1 = swapColLevels [(("DE01", "phes"),
        StorageParams.mk 1 1 1 1 1)] ∧
      res.1 ≠ [(("DE01", "phes"), StorageParams.mk 1 1 1 1 1)]) ∧
    (∃ msg, add_district_heating_systems
      [(("DE01", "electrical_load"), [1]),
       (("DE01", "district heating"), [1])] [] = Except.error msg) ∧
    (∀ res, add_electricity_demand
        [(("DE01", "electrical_load"), [1]),
         (("DE01", "district heating"), [1])] [] = Except.ok res →
      ∃ sub, colSelectE res.1 "district heating" = Except.ok sub) :=
  table_collection_frame_effect
    [(("DE01", "electrical_load"), [1]), (("DE01", "district heating"), [1])]
    [(("DE01", "phes"), StorageParams.mk 1 1 1 1 1)] [] []
    (by decide) (by decide) (by decide) (by decide)

/- ## C7: shortage and excess universality -/

theorem ndGet_cons_self {k : Label} {v : Node} {rest : NodeDict} :
    ndGet ((k, v) :: rest) k = some v := by
  simp [ndGet]

theorem ndGet_cons_ne {k key : Label} {v : Node} {rest : NodeDict}
    (h : k ≠ key) : ndGet ((k, v) :: rest) key = ndGet rest key := by
  simp [ndGet, h]

theorem excessLabel_inj {k k2 : Label} (hc : k.cat = k2.cat)
    (h : excessLabel k = excessLabel k2) : k = k2 := by
  cases k
  cases k2
  simp only [excessLabel, Label.mk.injEq] at h ⊢
  exact ⟨hc, h.2⟩

theorem shortageLabel_inj {k k2 : Label} (hc : k.cat = k2.cat)
    (h : shortageLabel k = shortageLabel k2) : k = k2 := by
  cases k
  cases k2
  simp only [shortageLabel, Label.mk.injEq] at h ⊢
  exact ⟨hc, h.2⟩

theorem excess_ne_shortage (k k2 : Label) :
    excessLabel k ≠ shortageLabel k2 :=
  Label.ne_of_cat (show ("excess" : String) ≠ "shortage" by decide)

theorem mem_partners {ks : List Label} {p : Label × Node}
    (hp : p ∈ shortage_excess_partners ks) :
    ∃ k ∈ ks,
      p = (excessLabel k, Node.sink (excessLabel k) [(k, {})]) ∨
      p = (shortageLabel k,
        Node.source (shortageLabel k) [(k, { variable_costs := 900 })]) := by
  induction ks with
  | nil => cases hp
  | cons k ks ih =>
    simp only [shortage_excess_partners] at hp
    rcases List.mem_cons.mp hp with rfl | hp2
    · exact ⟨k, List.mem_cons_self _ _, Or.inl rfl⟩
    · rcases List.mem_cons.mp hp2 with rfl | hp3
      · exact ⟨k, List.mem_cons_self _ _, Or.inr rfl⟩
      · obtain ⟨k2, hk2, hor⟩ := ih hp3
        exact ⟨k2, List.mem_cons_of_mem _ hk2, hor⟩

theorem mem_partners_keys {ks : List Label} {lab : Label}
    (h : lab ∈ (shortage_excess_partners ks).map Prod.fst) :
    ∃ k ∈ ks, lab = excessLabel k ∨ lab = shortageLabel k := by
  obtain ⟨p, hp, hlab⟩ := List.mem_map.mp h
  obtain ⟨k, hk, hor⟩ := mem_partners hp
  rcases hor with rfl | rfl
  · exact ⟨k, hk, Or.inl hlab.symm⟩
  · exact ⟨k, hk, Or.inr hlab.symm⟩

theorem count_partners_excess_zero {ks : List Label} {k0 : Label}
    (hcat : ∀ k ∈ ks, k.cat = "bus") (hc0 : k0.cat = "bus")
    (hk0 : k0 ∉ ks) :
    ((shortage_excess_partners ks).map Prod.fst).count (excessLabel k0)
      = 0 := by
  rw [List.count_eq_zero]
  intro hmem
  obtain ⟨k, hk, hor⟩ := mem_partners_keys hmem
  rcases hor with he | hs
  · refine hk0 ?_
    rw [excessLabel_inj (by rw [hc0, hcat k hk]) he]
    exact hk
  · exact absurd hs (excess_ne_shortage k0 k)

theorem count_partners_shortage_zero {ks : List Label} {k0 : Label}
    (hcat : ∀ k ∈ ks, k.cat = "bus") (hc0 : k0.cat = "bus")
    (hk0 : k0 ∉ ks) :
    ((shortage_excess_partners ks).map Prod.fst).count (shortageLabel k0)
      = 0 := by
  rw [List.count_eq_zero]
  intro hmem
  obtain ⟨k, hk, hor⟩ := mem_partners_keys hmem
  rcases hor with he | hs
  · exact absurd he.symm (excess_ne_shortage k k0)
  · refine hk0 ?_
    rw [shortageLabel_inj (by rw [hc0, hcat k hk]) hs]
    exact hk

theorem count_partners_excess_one {ks : List Label} {k0 : Label}
    (hcat : ∀ k ∈ ks, k.cat = "bus") (hnodup : ks.Nodup) (hk0 : k0 ∈ ks) :
    ((shortage_excess_partners ks).map Prod.fst).count (excessLabel k0)
      = 1 := by
  induction ks with
  | nil => cases hk0
  | cons k ks ih =>
    have hc0 : k0.cat = "bus" := hcat k0 hk0
    have hcat2 : ∀ k2 ∈ ks, k2.cat = "bus" :=
      fun k2 hk2 => hcat k2 (List.mem_cons_of_mem _ hk2)
    obtain ⟨hknot, hnodup2⟩ := List.nodup_cons.mp hnodup
    simp only [shortage_excess_partners, List.map_cons, List.count_cons]
    rcases List.mem_cons.mp hk0 with rfl | hk02
    · rw [count_partners_excess_zero hcat2 hc0 hknot]
      simp [Ne.symm (excess_ne_shortage k0 k0)]
    · have hkne : k ≠ k0 := fun he => hknot (he ▸ hk02)
      rw [ih hcat2 hnodup2 hk02]
      have hne1 : excessLabel k0 ≠ excessLabel k :=
        fun h => hkne (excessLabel_inj (by
          rw [hcat k (List.mem_cons_self _ _), hc0]) h).symm
      simp [Ne.symm hne1, Ne.symm (excess_ne_shortage k0 k)]

theorem count_partners_shortage_one {ks : List Label} {k0 : Label}
    (hcat : ∀ k ∈ ks, k.cat = "bus") (hnodup : ks.Nodup) (hk0 : k0 ∈ ks) :
    ((shortage_excess_partners ks).map Prod.fst).count (shortageLabel k0)
      = 1 := by
  induction ks with
  | nil => cases hk0
  | cons k ks ih =>
    have hc0 : k0.cat = "bus" := hcat k0 hk0
    have hcat2 : ∀ k2 ∈ ks, k2.cat = "bus" :=
      fun k2 hk2 => hcat k2 (List.mem_cons_of_mem _ hk2)
    obtain ⟨hknot, hnodup2⟩ := List.nodup_cons.mp hnodup
    simp only [shortage_excess_partners, List.map_cons, List.count_cons]
    rcases List.mem_cons.mp hk0 with rfl | hk02
    · rw [count_partners_shortage_zero hcat2 hc0 hknot]
      simp [excess_ne_shortage k0 k0]
    · have hkne : k ≠ k0 := fun he => hknot (he ▸ hk02)
      rw [ih hcat2 hnodup2 hk02]
      have hne1 : shortageLabel k0 ≠ shortageLabel k :=
        fun h => hkne (shortageLabel_inj (by
          rw [hcat k (List.mem_cons_self _ _), hc0]) h).symm
      simp [Ne.symm hne1, excess_ne_shortage k k0]

theorem ndGet_partners_excess {ks : List Label} {k0 : Label}
    (hcat : ∀ k ∈ ks, k.cat = "bus") (hk0 : k0 ∈ ks) :
    ndGet (shortage_excess_partners ks) (excessLabel k0) =
      some (Node.sink (excessLabel k0) [(k0, {})]) := by
  induction ks with
  | nil => cases hk0
  | cons k ks ih =>
    have hcat2 : ∀ k2 ∈ ks, k2.cat = "bus" :=
      fun k2 hk2 => hcat k2 (List.mem_cons_of_mem _ hk2)
    simp only [shortage_excess_partners]
    by_cases hk : k = k0
    · subst hk
      exact ndGet_cons_self
    · have h1 : excessLabel k ≠ excessLabel k0 :=
        fun h => hk (excessLabel_inj (by
          rw [hcat k (List.mem_cons_self _ _), hcat k0 hk0]) h)
      rw [ndGet_cons_ne h1, ndGet_cons_ne (Ne.symm (excess_ne_shortage k0 k))]
      exact ih hcat2 (by
        rcases List.mem_cons.mp hk0 with he | hm
        · exact absurd he.symm hk
        · exact hm)

theorem ndGet_partners_shortage {ks : List Label} {k0 : Label}
    (hcat : ∀ k ∈ ks, k.cat = "bus") (hk0 : k0 ∈ ks) :
    ndGet (shortage_excess_partners ks) (shortageLabel k0) =
      some (Node.source (shortageLabel k0)
        [(k0, { variable_costs := 900 })]) := by
  induction ks with
  | nil => cases hk0
  | cons k ks ih =>
    have hcat2 : ∀ k2 ∈ ks, k2.cat = "bus" :=
      fun k2 hk2 => hcat k2 (List.mem_cons_of_mem _ hk2)
    simp only [shortage_excess_partners]
    rw [ndGet_cons_ne (excess_ne_shortage k k0)]
    by_cases hk : k = k0
    · subst hk
      exact ndGet_cons_self
    · have h1 : shortageLabel k ≠ shortageLabel k0 :=
        fun h => hk (shortageLabel_inj (by
          rw [hcat k (List.mem_cons_self _ _), hcat k0 hk0]) h)
      rw [ndGet_cons_ne h1]
      exact ih hcat2 (by
        rcases List.mem_cons.mp hk0 with he | hm
        · exact absurd he.symm hk
        · exact hm)

theorem shortage_excess_fold (ks : List Label) (nd : NodeDict)
    (hcat : ∀ k ∈ ks, k.cat = "bus")
    (hnodup : ks.Nodup)
    (hfresh : ∀ k ∈ ks, ndGet nd (excessLabel k) = none ∧
      ndGet nd (shortageLabel k) = none) :
    List.foldlM add_shortage_excess_step nd ks =
      Except.ok (nd ++ shortage_excess_partners ks) := by
  induction ks generalizing nd with
  | nil =>
    simp only [List.foldlM_nil, shortage_excess_partners, List.append_nil]
    rfl
  | cons k ks ih =>
    have hcat2 : ∀ k2 ∈ ks, k2.cat = "bus" :=
      fun k2 hk2 => hcat k2 (List.mem_cons_of_mem _ hk2)
    obtain ⟨hknot, hnodup2⟩ := List.nodup_cons.mp hnodup
    obtain ⟨hfe, hfs⟩ := hfresh k (List.mem_cons_self _ _)
    have hstep : add_shortage_excess_step nd k = Except.ok
        (nd ++ [(excessLabel k, Node.sink (excessLabel k) [(k, {})]),
          (shortageLabel k, Node.source (shortageLabel k)
            [(k, { variable_costs := 900 })])]) := by
      unfold add_shortage_excess_step
      rw [setItem_of_none _ hfe]
      simp only [exc_bind_ok]
      rw [setItem_of_none _ (by
        rw [ndGet_append_singleton_ne _ (excess_ne_shortage k k)]
        exact hfs)]
      rw [List.append_assoc]
      rfl
    rw [List.foldlM_cons, hstep]
    simp only [exc_bind_ok]
    rw [ih _ hcat2 hnodup2 ?_]
    · rw [List.append_assoc]
      rfl
    · intro k2 hk2
      have hke : excessLabel k ≠ excessLabel k2 := fun h =>
        hknot (by
          rw [excessLabel_inj (by
            rw [hcat k (List.mem_cons_self _ _), hcat2 k2 hk2]) h]
          exact hk2)
      have hks : excessLabel k ≠ shortageLabel k2 := excess_ne_shortage k k2
      have hse : shortageLabel k ≠ excessLabel k2 :=
        (excess_ne_shortage k2 k).symm
      have hss : shortageLabel k ≠ shortageLabel k2 := fun h =>
        hknot (by
          rw [shortageLabel_inj (by
            rw [hcat k (List.mem_cons_self _ _), hcat2 k2 hk2]) h]
          exact hk2)
      constructor
      · rw [ndGet_append_of_keys_ne (by
          intro p hp
          rcases List.mem_cons.mp hp with rfl | hp2
          · exact hke
          · rw [List.eq_of_mem_singleton hp2]
            exact hse)]
        exact (hfresh k2 (List.mem_cons_of_mem _ hk2)).1
      · rw [ndGet_append_of_keys_ne (by
          intro p hp
          rcases List.mem_cons.mp hp with rfl | hp2
          · exact hks
          · rw [List.eq_of_mem_singleton hp2]
            exact hss)]
        exact (hfresh k2 (List.mem_cons_of_mem _ hk2)).2

/-- C7: after the shortage/excess builder runs last over the finished
registry (pairwise-distinct keys whose categories are those the pipeline
builders create), every node whose key has category bus has exactly one
Excess Sink (category excess, same tag/subtag/region, drawing from that
bus) and exactly one Shortage Source (category shortage, same
tag/subtag/region, feeding that bus at the positive per-unit variable cost
900), and every excess or shortage key of the result corresponds to a bus
of the registry, so no node of any other category receives a partner. -/
theorem shortage_excess_universality (nodes : NodeDict)
    (hnodup : (nodes.map Prod.fst).Nodup)
    (hcats : ∀ p ∈ nodes, p.1.cat ∈ pipelineCats) :
    ∃ nodes2,
      add_shortage_excess nodes = Except.ok nodes2 ∧
      (∀ p ∈ nodes, p.1.cat = "bus" →
        (nodes2.map Prod.fst).count (excessLabel p.1) = 1 ∧
        ndGet nodes2 (excessLabel p.1) =
          some (Node.sink (excessLabel p.1) [(p.1, {})]) ∧
        (nodes2.map Prod.fst).count (shortageLabel p.1) = 1 ∧
        ndGet nodes2 (shortageLabel p.1) =
          some (Node.source (shortageLabel p.1)
            [(p.1, { variable_costs := 900 })]) ∧
        (0 : ℚ) < 900) ∧
      (∀ q ∈ nodes2, q.1.cat = "excess" ∨ q.1.cat = "shortage" →
        (Label.mk "bus" q.1.tag q.1.subtag q.1.region) ∈
          nodes.map Prod.fst) := by
  have hcat_mem : ∀ k ∈ nodes.map Prod.fst, k.cat ∈ pipelineCats := by
    intro k hk
    obtain ⟨p, hp, rfl⟩ := List.mem_map.mp hk
    exact hcats p hp
  have hbus_pipe : ∀ c ∈ pipelineCats,
      strContainsStr c "bus" = true → c = "bus" := by decide
  set bus_keys := (nodes.map Prod.fst).filter
    (fun key => strContainsStr key.cat "bus") with hbk
  have hsubk : ∀ k ∈ bus_keys, k ∈ nodes.map Prod.fst := by
    intro k hk
    exact (List.mem_filter.mp hk).1
  have hcatk : ∀ k ∈ bus_keys, k.cat = "bus" := by
    intro k hk
    exact hbus_pipe _ (hcat_mem k (List.mem_filter.mp hk).1)
      (List.mem_filter.mp hk).2
  have hnodupb : bus_keys.Nodup := hnodup.filter _
  have hno_cat : ∀ lab : Label, lab.cat ∉ pipelineCats →
      ndGet nodes lab = none := by
    intro lab hlab
    rw [ndGet_eq_none_iff]
    intro p hp hpe
    exact hlab (hpe ▸ hcats p hp)
  have hfresh : ∀ k ∈ bus_keys, ndGet nodes (excessLabel k) = none ∧
      ndGet nodes (shortageLabel k) = none := by
    intro k hk
    exact ⟨hno_cat _ (show ("excess" : String) ∉ pipelineCats by decide),
      hno_cat _ (show ("shortage" : String) ∉ pipelineCats by decide)⟩
  have hrun : add_shortage_excess nodes =
      Except.ok (nodes ++ shortage_excess_partners bus_keys) := by
    simp only [add_shortage_excess]
    rw [← hbk]
    exact shortage_excess_fold bus_keys nodes hcatk hnodupb hfresh
  refine ⟨nodes ++ shortage_excess_partners bus_keys, hrun, ?_, ?_⟩
  · intro p hp hpc
    have hmemb : p.1 ∈ bus_keys := by
      rw [hbk]
      refine List.mem_filter.mpr ⟨List.mem_map_of_mem _ hp, ?_⟩
      rw [hpc]
      decide
    have hnme : excessLabel p.1 ∉ nodes.map Prod.fst := by
      intro hmem
      exact absurd (hcat_mem _ hmem)
        (show ("excess" : String) ∉ pipelineCats by decide)
    have hnms : shortageLabel p.1 ∉ nodes.map Prod.fst := by
      intro hmem
      exact absurd (hcat_mem _ hmem)
        (show ("shortage" : String) ∉ pipelineCats by decide)
    refine ⟨?_, ?_, ?_, ?_, by norm_num⟩
    · rw [List.map_append, List.count_append,
        List.count_eq_zero.mpr hnme,
        count_partners_excess_one hcatk hnodupb hmemb]
    · rw [ndGet_append_of_none _ (hno_cat _
          (show ("excess" : String) ∉ pipelineCats by decide)),
        ndGet_partners_excess hcatk hmemb]
    · rw [List.map_append, List.count_append,
        List.count_eq_zero.mpr hnms,
        count_partners_shortage_one hcatk hnodupb hmemb]
    · rw [ndGet_append_of_none _ (hno_cat _
          (show ("shortage" : String) ∉ pipelineCats by decide)),
        ndGet_partners_shortage hcatk hmemb]
  · intro q hq hqc
    rcases List.mem_append.mp hq with hqn | hqp
    · rcases hqc with hqe | hqs
      · exact absurd (hqe ▸ hcats q hqn)
          (show ("excess" : String) ∉ pipelineCats by decide)
      · exact absurd (hqs ▸ hcats q hqn)
          (show ("shortage" : String) ∉ pipelineCats by decide)
    · obtain ⟨k, hk, hor⟩ := mem_partners hqp
      rcases hor with rfl | rfl
      · rw [← hcatk k hk]
        exact hsubk k hk
      · rw [← hcatk k hk]
        exact hsubk k hk

/-- Concrete check of C7: a registry holding one electricity bus and one
volatile source receives exactly one excess and one shortage partner for
the bus and none for the source. -/
theorem shortage_excess_universality_witness :
    ∃ nodes2,
      add_shortage_excess
          [(Label.mk "bus" "electricity" "all" "DE01",
            Node.bus (Label.mk "bus" "electricity" "all" "DE01")),
           (Label.mk "source" "ee" "wind" "DE01",
            Node.source (Label.mk "source" "ee" "wind" "DE01") [])]
        = Except.ok nodes2 ∧
      (∀ p ∈ [(Label.mk "bus" "electricity" "all" "DE01",
            Node.bus (Label.mk "bus" "electricity" "all" "DE01")),
           (Label.mk "source" "ee" "wind" "DE01",
            Node.source (Label.mk "source" "ee" "wind" "DE01") [])],
        p.1.cat = "bus" →
        (nodes2.map Prod.fst).count (excessLabel p.1) = 1 ∧
        ndGet nodes2 (excessLabel p.1) =
          some (Node.sink (excessLabel p.1) [(p.1, {})]) ∧
        (nodes2.map Prod.fst).count (shortageLabel p.1) = 1 ∧
        ndGet nodes2 (shortageLabel p.1) =
          some (Node.source (shortageLabel p.1)
            [(p.1, { variable_costs := 900 })]) ∧
        (0 : ℚ) < 900) ∧
      (∀ q ∈ nodes2, q.1.cat = "excess" ∨ q.1.cat = "shortage" →
        (Label.mk "bus" q.1.tag q.1.subtag q.1.region) ∈
          [(Label.mk "bus" "electricity" "all" "DE01",
            Node.bus (Label.mk "bus" "electricity" "all" "DE01")),
           (Label.mk "source" "ee" "wind" "DE01",
            Node.source (Label.mk "source" "ee" "wind" "DE01") [])].map
            Prod.fst) :=
  shortage_excess_universality
    [(Label.mk "bus" "electricity" "all" "DE01",
      Node.bus (Label.mk "bus" "electricity" "all" "DE01")),
     (Label.mk "source" "ee" "wind" "DE01",
      Node.source (Label.mk "source" "ee" "wind" "DE01") [])]
    (by decide) (by decide)

end Deflex
